import Mathlib

/-!
Shallow embedding of the tariff-aware recommendation engine
(`ml-service/app/services/recommendation_engine.py`, class `RecommendationEngine`).

Modelling conventions:
* Python floats are modelled as exact rationals (ℚ); `round(x, 2)` is modelled
  as exact decimal round-half-to-even at two places.
* Python exceptions are modelled with `Except Unit`; a `try/except` block is a
  `match` on the `Except` result.  Functions that the source makes total by
  catching all exceptions are total Lean functions.
* Heterogeneous Python values (the tariff `pricing_data` dictionary, CAISO
  price records) are modelled by the inductive `PVal`.  Dictionaries are
  association lists in insertion order with string keys (as the repository's
  tariff data uses).  `datetime` values and timestamp strings are both
  modelled by `PVal.time`: `PVal.time (some t)` is a value that
  `datetime.fromisoformat` (or a no-op, for an actual `datetime`) turns into
  the instant `t`, and `PVal.time none` is a string on which parsing raises.
  Plain (non-timestamp) strings are `PVal.str` and are assumed not to parse
  as ISO timestamps.
* Timestamps are modelled abstractly by `Ts`: a day identifier plus the
  fields the engine reads (`hour`, `weekday`, `month`) and a sub-hour
  component.  Truncation to the hour (`replace(minute=0, second=0,
  microsecond=0)`) keeps `dayKey` and `hour` and zeroes `sub`.
* `np.mean` is modelled as sum/length; every use in a proved statement is
  guarded by a nonemptiness hypothesis matching the source's reachable uses
  (on an empty list `np.mean` yields NaN, which ℚ cannot represent).
* Presentation-only fields of a recommendation (headline, description,
  `supporting_data`) are omitted; numeric computations appearing inside those
  f-strings that can raise (divisions) are kept as explicit steps.
-/

/-- Abstract timestamp: the components of a parsed `datetime` that the engine
reads.  `dayKey` identifies the calendar date, `sub` the sub-hour part. -/
structure Ts where
  dayKey : Int
  hour : Nat
  dow : Nat
  month : Nat
  sub : Nat
deriving DecidableEq, Repr

/-- A Python runtime value, as used by the tariff data structures. -/
inductive PVal where
  | num (q : ℚ)
  | str (s : String)
  | time (t : Option Ts)
  | vlist (l : List PVal)
  | vdict (d : List (String × PVal))
  | vbool (b : Bool)
  | pynone
deriving Repr

/-- Exception-carrying computation (`Except Unit`). -/
abbrev Py (α : Type) : Type := Except Unit α

namespace PVal

/-- Structural decidable equality on `PVal`. -/
def beqv : PVal → PVal → Bool
  | num a, num b => a == b
  | str a, str b => a == b
  | time a, time b => a == b
  | vbool a, vbool b => a == b
  | pynone, pynone => true
  | vlist a, vlist b => beqvList a b
  | vdict a, vdict b => beqvDict a b
  | _, _ => false
where
  beqvList : List PVal → List PVal → Bool
    | [], [] => true
    | x :: xs, y :: ys => beqv x y && beqvList xs ys
    | _, _ => false
  beqvDict : List (String × PVal) → List (String × PVal) → Bool
    | [], [] => true
    | (k, x) :: xs, (l, y) :: ys => k == l && beqv x y && beqvDict xs ys
    | _, _ => false

instance : BEq PVal := ⟨beqv⟩

/-- Python truthiness of the values the engine branches on. -/
def truthy : PVal → Bool
  | num q => q != 0
  | str s => s ≠ ""
  | time _ => true
  | vlist l => !l.isEmpty
  | vdict d => !d.isEmpty
  | vbool b => b
  | pynone => false

def isDict : PVal → Bool
  | vdict _ => true
  | _ => false

def asDictE : PVal → Py (List (String × PVal))
  | vdict d => .ok d
  | _ => .error ()

end PVal

open PVal

/-- `d[k]` lookup on an association-list dictionary (first binding wins). -/
def pyGet (d : List (String × PVal)) (k : String) : Option PVal :=
  (d.find? (fun kv => kv.1 == k)).map (fun kv => kv.2)

/-- `d.get(k, dflt)`. -/
def pyGetD (d : List (String × PVal)) (k : String) (dflt : PVal) : PVal :=
  (pyGet d k).getD dflt

/-- Python `==` between a number and an arbitrary value (`True == 1` holds). -/
def pyEqNum (n : ℚ) : PVal → Bool
  | PVal.num q => n == q
  | PVal.vbool b => n == (if b then (1 : ℚ) else 0)
  | _ => false

/-- Python `n in v` for a numeric needle.  Raises `TypeError` on
non-container values, as Python does.  (Dictionary keys in the tariff data
are strings, so numeric key membership is `False`.) -/
def pyMemNum (n : ℚ) : PVal → Py Bool
  | PVal.vlist l => .ok (l.any (pyEqNum n))
  | PVal.vdict _ => .ok false
  | _ => .error ()

/-- Python `s in v` for a string needle: key membership for dictionaries,
element equality for lists, substring for strings; raises on non-containers. -/
def pyMemStr (s : String) : PVal → Py Bool
  | PVal.vdict d => .ok (d.any (fun kv => kv.1 == s))
  | PVal.vlist l => .ok (l.any (fun e => e == PVal.str s))
  | PVal.str t => .ok ((t.splitOn s).length ≠ 1)
  | PVal.time _ => .ok false
  | _ => .error ()

/-- Python `v[k]` subscription with a string key: dictionaries succeed when
the key is present; every other case raises. -/
def pySubscript (v : PVal) (k : String) : Py PVal :=
  match v with
  | PVal.vdict d =>
      match pyGet d k with
      | some x => .ok x
      | none => .error ()
  | _ => .error ()

/-- Python `a / b` on engine values: numeric division, raising
`ZeroDivisionError` on a zero divisor and `TypeError` off numbers. -/
def pyDiv : PVal → PVal → Py PVal
  | PVal.num a, PVal.num b => if b == 0 then .error () else .ok (PVal.num (a / b))
  | _, _ => .error ()

/-- ℚ division raising on a zero divisor (Python float semantics). -/
def qdiv (a b : ℚ) : Py ℚ :=
  if b == 0 then .error () else .ok (a / b)

/-- Python `max(...)` over a generator of numbers: raises on empty input. -/
def pyMax : List ℚ → Py ℚ
  | [] => .error ()
  | x :: xs => .ok (xs.foldl max x)

/-- Python `min(...)` over numbers: raises on empty input. -/
def pyMin : List ℚ → Py ℚ
  | [] => .error ()
  | x :: xs => .ok (xs.foldl min x)

/-- Python `min(l, key=f)`: the first element attaining the minimal key. -/
def pyMinBy {α : Type} (f : α → ℚ) : List α → Py α
  | [] => .error ()
  | x :: xs => .ok (xs.foldl (fun acc y => if f y < f acc then y else acc) x)

/-- `np.mean` as sum/length.  On an empty list numpy yields NaN (with a
runtime warning, not an exception), which ℚ cannot represent; here `[]`
gives `0/0 = 0`.  Every theorem below that reads an `npMean` value
therefore carries a nonemptiness hypothesis under which the argument list
is provably non-empty, so the `[]` case is never what a statement rests
on (see also the header note and `generate_weather_alert`). -/
def npMean (l : List ℚ) : ℚ := l.sum / l.length

/-- Round-half-to-even to an integer (Python `round` tie-breaking). -/
def roundHalfEven (q : ℚ) : ℤ :=
  let f := ⌊q⌋
  let frac := q - f
  if frac < 1/2 then f
  else if frac > 1/2 then f + 1
  else if Even f then f else f + 1

/-- Python `round(x, 2)` on the exact-rational model of floats. -/
def round2 (q : ℚ) : ℚ := (roundHalfEven (q * 100) : ℚ) / 100

/-- Python `int(x)`: truncation toward zero. -/
def pyInt (q : ℚ) : ℤ := if 0 ≤ q then ⌊q⌋ else -⌊-q⌋

/-- Truncation of two instants to the hour coincides
(`dt.replace(minute=0, second=0, microsecond=0)` equality). -/
def truncEq (a b : Ts) : Bool := a.dayKey == b.dayKey && a.hour == b.hour

/- ------------------------------------------------------------------
   `RecommendationEngine._is_in_period`
   ------------------------------------------------------------------ -/

/-- One pass of `for start_hour, end_hour in hour_ranges`: each element must
unpack into two values, the two bounds are compared (raising off numbers),
and `start > end` denotes a range wrapping past midnight. -/
def hourInRanges (hour : ℚ) : PVal → Py Bool
  | PVal.vlist l => go l
  | _ => .error ()
where
  go : List PVal → Py Bool
    | [] => .ok false
    | r :: rest => do
        match r with
        | PVal.vlist [PVal.num s, PVal.num e] =>
            if s > e then
              if hour ≥ s || hour < e then return true else go rest
            else
              if s ≤ hour && hour < e then return true else go rest
        | _ => .error ()

/-- `_is_in_period(hour, day_of_week, period_config)`. -/
def is_in_period (hour dow : Nat) (cfg : List (String × PVal)) : Py Bool := do
  let valid_days := pyGetD cfg "days"
    (PVal.vlist [PVal.num 0, PVal.num 1, PVal.num 2, PVal.num 3,
                 PVal.num 4, PVal.num 5, PVal.num 6])
  let dayOk ← pyMemNum (dow : ℚ) valid_days
  if !dayOk then return false
  let hour_ranges := pyGetD cfg "hours" (PVal.vlist [])
  hourInRanges (hour : ℚ) hour_ranges

/- ------------------------------------------------------------------
   `RecommendationEngine._get_rate_from_structure`
   ------------------------------------------------------------------ -/

/-- `seasons.get('summer', {}).get('months', [5,6,7,8,9])`: the `summer`
entry must be a dictionary (or absent) or `.get` raises. -/
def summerMonths (seasons : List (String × PVal)) : Py PVal := do
  match pyGetD seasons "summer" (PVal.vdict []) with
  | PVal.vdict s =>
      return pyGetD s "months"
        (PVal.vlist [PVal.num 5, PVal.num 6, PVal.num 7, PVal.num 8, PVal.num 9])
  | _ => .error ()

/-- Format 1 inner loop over `periods.items()`: the first dictionary-valued
period matching `(hour, day_of_week)` yields `period_config.get('rate', 0.12)`. -/
def periodsLoop (hour dow : Nat) : List (String × PVal) → Py (Option PVal)
  | [] => .ok none
  | (_, cfgv) :: rest =>
      match cfgv with
      | PVal.vdict cfg => do
          let m ← is_in_period hour dow cfg
          if m then return some (pyGetD cfg "rate" (PVal.num 0.12))
          else periodsLoop hour dow rest
      | _ => periodsLoop hour dow rest

/-- Format 1, body for the chosen season: `if season in seasons and
'periods' in seasons[season]` followed by the periods loop. -/
def format1Season (hour dow : Nat) (svo : Option PVal) : Py (Option PVal) :=
  match svo with
  | some sv => do
      let hasPeriods ← pyMemStr "periods" sv
      if hasPeriods then
        let periods ← pySubscript sv "periods"
        match periods with
        | PVal.vdict pl => periodsLoop hour dow pl
        | _ => .error ()
      else
        return none
  | none => return none

/-- Format 1: `seasons → summer/winter → periods → …`.  Returns `none` when
the format is inapplicable or no period matched (the source then falls
through to the next format). -/
def format1Rate (rs : List (String × PVal)) (hour dow month : Nat) :
    Py (Option PVal) := do
  match pyGet rs "seasons" with
  | some (PVal.vdict seasons) =>
      let months ← summerMonths seasons
      let inSummer ← pyMemNum (month : ℚ) months
      let season := if inSummer then "summer" else "winter"
      format1Season hour dow (pyGet seasons season)
  | _ => return none

/-- Format 2 inner loop over `['onPeak', 'midPeak', 'offPeak']`: for the
first period listed in `season_config` whose hour ranges contain the hour,
return `charges.get(period, 0.12)`. -/
def touPeriodsLoop (hour : Nat) (scfg : PVal) (charges : List (String × PVal)) :
    List String → Py (Option PVal)
  | [] => .ok none
  | p :: rest => do
      let hasP ← pyMemStr p scfg
      if hasP then
        let hour_ranges ← pySubscript scfg p
        let matched ← hourInRanges (hour : ℚ) hour_ranges
        if matched then return some (pyGetD charges p (PVal.num 0.12))
        else touPeriodsLoop hour scfg charges rest
      else touPeriodsLoop hour scfg charges rest

/-- Format 2, body for the chosen season: `if season in tou and
isinstance(charges, dict)` followed by the three-period loop. -/
def format2Season (hour : Nat) (scfgo : Option PVal) (charges : PVal) :
    Py (Option PVal) :=
  match scfgo, charges with
  | some scfg, PVal.vdict chd =>
      touPeriodsLoop hour scfg chd ["onPeak", "midPeak", "offPeak"]
  | _, _ => return none

/-- Format 2: `timeOfUse` + `energyCharges`.  (Weekday is not consulted in
this format.)  Returns `none` when inapplicable or no period matched. -/
def format2Rate (rs : List (String × PVal)) (hour month : Nat) :
    Py (Option PVal) := do
  match pyGet rs "timeOfUse", pyGet rs "energyCharges" with
  | some tou, some charges =>
      let toud ← tou.asDictE
      let months ← summerMonths toud
      let inSummer ← pyMemNum (month : ℚ) months
      let season := if inSummer then "summer" else "winter"
      format2Season hour (pyGet toud season) charges
  | _, _ => return none

/-- Legacy format loop over the top-level `rate_structure.items()`: first
dictionary-valued entry carrying a `rate` key that matches the period. -/
def legacyLoop (hour dow : Nat) : List (String × PVal) → Py (Option PVal)
  | [] => .ok none
  | (_, cfgv) :: rest =>
      match cfgv with
      | PVal.vdict cfg =>
          if (pyGet cfg "rate").isSome then do
            let m ← is_in_period hour dow cfg
            if m then return some (pyGetD cfg "rate" (PVal.num 0.12))
            else legacyLoop hour dow rest
          else legacyLoop hour dow rest
      | _ => legacyLoop hour dow rest

/-- `_get_rate_from_structure(rate_structure, hour, day_of_week, month)`:
tries the three schema variants in order and falls back to `0.12`. -/
def get_rate_from_structure (rs : List (String × PVal)) (hour dow month : Nat) :
    Py PVal := do
  let r1 ← format1Rate rs hour dow month
  match r1 with
  | some v => return v
  | none =>
      let r2 ← format2Rate rs hour month
      match r2 with
      | some v => return v
      | none =>
          let r3 ← legacyLoop hour dow rs
          match r3 with
          | some v => return v
          | none => return PVal.num 0.12

/- ------------------------------------------------------------------
   `get_rate_at_time` and `calculate_electricity_cost`
   ------------------------------------------------------------------ -/

/-- The body of the CAISO matching loop shared (textually duplicated in the
source) by `get_rate_at_time` and `calculate_electricity_cost`: walks the
records, reads and parses each `timestamp` field, and on the first
truncated-hour match returns `record.get('lmp_kwh', record.get('lmp', 0)/1000)`
(evaluating the default eagerly, as Python does). -/
def caisoLoop (t : Ts) : List PVal → Py (Option PVal)
  | [] => .ok none
  | r :: rest => do
      let rd ← r.asDictE
      let pdt ← match pyGet rd "timestamp" with
        | some (PVal.time (some t')) => Except.ok t'
        | _ => Except.error ()
      if truncEq pdt t then
        let lmpDefault ← pyDiv (pyGetD rd "lmp" (PVal.num 0)) (PVal.num 1000)
        return some (pyGetD rd "lmp_kwh" lmpDefault)
      else caisoLoop t rest

/-- The CAISO phase: parse the query timestamp, then scan the records. -/
def caisoPhase (ts : Option Ts) (records : List PVal) : Py (Option PVal) :=
  match ts with
  | none => .error ()
  | some t => caisoLoop t records

/-- Lines 211–221 of the source: parse the timestamp and consult
`_get_rate_from_structure`, with every exception collapsing to `0.12`. -/
def structPhase (ts : Option Ts) (rs : List (String × PVal)) : PVal :=
  match ts with
  | none => PVal.num 0.12
  | some t =>
      match get_rate_from_structure rs t.hour t.dow t.month with
      | .ok v => v
      | .error _ => PVal.num 0.12

/-- The TOU fallback of `get_rate_at_time` (source lines 203–221): the
value returned once the CAISO phase has yielded nothing. -/
def touRate (ts : Option Ts) (pricing : PVal) : PVal :=
  if !pricing.truthy || !pricing.isDict then PVal.num 0.12
  else
    match pricing with
    | PVal.vdict d =>
        let rs := pyGetD d "rate_structure" PVal.pynone
        if !rs.truthy || !rs.isDict then pyGetD d "off_peak_rate" (PVal.num 0.12)
        else
          match rs with
          | PVal.vdict rsd => structPhase ts rsd
          | _ => PVal.num 0.12
    | _ => PVal.num 0.12

/-- `get_rate_at_time(timestamp, pricing_data, caiso_pricing)`.  Total: the
source catches every exception it can encounter. -/
def get_rate_at_time (ts : Option Ts) (pricing : PVal) (caiso : List PVal) :
    PVal :=
  let fromCaiso : Option PVal :=
    if caiso.isEmpty then none
    else
      match caisoPhase ts caiso with
      | .ok (some v) => some v
      | _ => none
  match fromCaiso with
  | some v => v
  | none => touRate ts pricing

/-- The TOU fallback of `calculate_electricity_cost` (source lines 76–97):
unlike `get_rate_at_time`, the final multiplication and the structure lookup
sit outside any `try`, so a malformed structure or non-numeric rate value
propagates as an exception. -/
def touCost (q : ℚ) (ts : Option Ts) (pricing : PVal) : Py ℚ :=
  if !pricing.truthy || !pricing.isDict then .ok (q * 0.12)
  else
    match pricing with
    | PVal.vdict d =>
        let rs := pyGetD d "rate_structure" PVal.pynone
        if !rs.truthy || !rs.isDict then
          match pyGetD d "off_peak_rate" (PVal.num 0.12) with
          | PVal.num r => .ok (q * r)
          | _ => .error ()
        else
          match rs with
          | PVal.vdict rsd =>
              match ts with
              | none => .ok (q * 0.12)
              | some t => do
                  match (← get_rate_from_structure rsd t.hour t.dow t.month) with
                  | PVal.num r => .ok (q * r)
                  | _ => .error ()
          | _ => .ok (q * 0.12)
    | _ => .ok (q * 0.12)

/-- `calculate_electricity_cost(consumption_kwh, timestamp, pricing_data,
caiso_pricing)`.  The CAISO phase catches its own exceptions (printing a
warning) and falls through to the TOU path. -/
def calculate_electricity_cost (q : ℚ) (ts : Option Ts) (pricing : PVal)
    (caiso : List PVal) : Py ℚ :=
  let fromCaiso : Option ℚ :=
    if caiso.isEmpty then none
    else
      match caisoPhase ts caiso with
      | .ok (some (PVal.num r)) => some r
      | _ => none
  match fromCaiso with
  | some r => .ok (q * r)
  | none => touCost q ts pricing

/- ------------------------------------------------------------------
   C8: period boundary semantics
   ------------------------------------------------------------------ -/

/-- The split/daytime period of the claim: `hours=[[0,7],[19,24]]`. -/
def c8cfgA (dv : PVal) : List (String × PVal) :=
  [("hours", PVal.vlist [PVal.vlist [PVal.num 0, PVal.num 7],
                         PVal.vlist [PVal.num 19, PVal.num 24]]),
   ("days", dv)]

/-- The overnight wrapping period of the claim: `hours=[[19,7]]`. -/
def c8cfgB (dv : PVal) : List (String × PVal) :=
  [("hours", PVal.vlist [PVal.vlist [PVal.num 19, PVal.num 7]]),
   ("days", dv)]

/- ------------------------------------------------------------------
   C3: fallback path of `get_rate_at_time`
   ------------------------------------------------------------------ -/

/-- A profile with an `off_peak_rate` and a non-empty `rate_structure`
matching none of the three variants. -/
def c3pd : PVal :=
  PVal.vdict [("rate_structure", PVal.vdict [("foo", PVal.num 1)]),
              ("off_peak_rate", PVal.num 0.05)]

def c3ts : Ts := ⟨0, 10, 2, 6, 0⟩

/- ------------------------------------------------------------------
   Well-formed tariff data: the structural conditions under which the
   resolver's arithmetic stays on positive numbers (the data model of
   the spec).  Each condition names the field access it protects.
   ------------------------------------------------------------------ -/

/-- A value usable as a list of month/day numbers. -/
def wfNumList : PVal → Bool
  | PVal.vlist l => l.all fun e => match e with | PVal.num _ => true | _ => false
  | _ => false

/-- A value usable as a list of `[start, end]` hour ranges. -/
def wfHours : PVal → Bool
  | PVal.vlist l => l.all fun e =>
      match e with
      | PVal.vlist [PVal.num _, PVal.num _] => true
      | _ => false
  | _ => false

/-- An optional `months`/`days` field: absent or a numeric list. -/
def wfOptNumList : Option PVal → Bool
  | none => true
  | some v => wfNumList v

/-- An optional `hours` field: absent or a list of numeric pairs. -/
def wfOptHours : Option PVal → Bool
  | none => true
  | some v => wfHours v

/-- An optional rate-like field: absent or a strictly positive number. -/
def wfRatePos : Option PVal → Bool
  | none => true
  | some (PVal.num r) => decide (0 < r)
  | some _ => false

/-- A period configuration whose `days`, `hours` and `rate` fields are
well-typed, with a strictly positive rate when present. -/
def wfPeriodCfg (cfg : List (String × PVal)) : Bool :=
  wfOptNumList (pyGet cfg "days") && wfOptHours (pyGet cfg "hours") &&
    wfRatePos (pyGet cfg "rate")

/-- A `periods` item: dictionary-valued entries must be well-formed period
configurations (others are skipped by the source). -/
def wfPeriodsEntry : PVal → Bool
  | PVal.vdict cfg => wfPeriodCfg cfg
  | _ => true

def wfPeriodsList (pl : List (String × PVal)) : Bool :=
  pl.all fun kv => wfPeriodsEntry kv.2

/-- An optional `periods` field: absent or a dictionary of period configs. -/
def wfPeriodsVal : Option PVal → Bool
  | none => true
  | some (PVal.vdict pl) => wfPeriodsList pl
  | some _ => false

/-- A `seasons.summer` / `seasons.winter` entry. -/
def wfSeasonVal : PVal → Bool
  | PVal.vdict s =>
      wfOptNumList (pyGet s "months") && wfPeriodsVal (pyGet s "periods")
  | _ => false

def wfOptSeasonVal : Option PVal → Bool
  | none => true
  | some v => wfSeasonVal v

/-- The optional `seasons` entry of a rate structure (format 1 is skipped
safely when it is absent or not a dictionary). -/
def wfSeasons : Option PVal → Bool
  | some (PVal.vdict sd) =>
      wfOptSeasonVal (pyGet sd "summer") && wfOptSeasonVal (pyGet sd "winter")
  | _ => true

/-- A `timeOfUse.summer` / `timeOfUse.winter` entry. -/
def wfTouSeason : PVal → Bool
  | PVal.vdict s =>
      wfOptNumList (pyGet s "months") &&
        (["onPeak", "midPeak", "offPeak"].all fun p => wfOptHours (pyGet s p))
  | _ => false

def wfOptTouSeason : Option PVal → Bool
  | none => true
  | some v => wfTouSeason v

/-- A `timeOfUse` value (must be a dictionary: the source calls `.get` on
it unconditionally once format 2 is entered). -/
def wfTou : PVal → Bool
  | PVal.vdict td =>
      wfOptTouSeason (pyGet td "summer") && wfOptTouSeason (pyGet td "winter")
  | _ => false

/-- An `energyCharges` value: positive numeric (or absent) per-period rates
when a dictionary; a non-dictionary is skipped by the `isinstance` guard. -/
def wfCharges : PVal → Bool
  | PVal.vdict chd =>
      ["onPeak", "midPeak", "offPeak"].all fun p => wfRatePos (pyGet chd p)
  | _ => true

/-- The optional `timeOfUse`/`energyCharges` pair (format 2 is entered only
when both keys are present). -/
def wfTouPair : Option PVal → Option PVal → Bool
  | some tou, some charges => wfTou tou && wfCharges charges
  | _, _ => true

/-- A top-level `rate_structure` entry seen by the legacy loop. -/
def wfLegacyEntry : PVal → Bool
  | PVal.vdict cfg => !(pyGet cfg "rate").isSome || wfPeriodCfg cfg
  | _ => true

/-- A well-formed `rate_structure` dictionary: each of the three variants'
access paths is well-typed and every reachable rate is a positive number. -/
def wfStruct (rsd : List (String × PVal)) : Bool :=
  wfSeasons (pyGet rsd "seasons") &&
    wfTouPair (pyGet rsd "timeOfUse") (pyGet rsd "energyCharges") &&
    rsd.all fun kv => wfLegacyEntry kv.2

/-- A `rate_structure` value on the pricing dictionary: non-dictionaries and
the empty dictionary take the `off_peak_rate` branch; a non-empty dictionary
must be well-formed. -/
def wfRsVal : PVal → Bool
  | PVal.vdict rsd => rsd.isEmpty || wfStruct rsd
  | _ => true

/-- Well-formed pricing data with positive rates: any non-dictionary value is
fine (the source falls back to 0.12); a dictionary must carry a positive
numeric (or absent) `off_peak_rate` and a well-formed `rate_structure`. -/
def wfPricing : PVal → Bool
  | PVal.vdict d =>
      wfRsVal (pyGetD d "rate_structure" PVal.pynone) &&
        wfRatePos (pyGet d "off_peak_rate")
  | _ => true

/-- A `timestamp` field of a CAISO record: a parseable instant. -/
def wfTsVal : Option PVal → Bool
  | some (PVal.time (some _)) => true
  | _ => false

/-- An optional `lmp` field: absent or numeric (so the eagerly evaluated
`record.get('lmp', 0)/1000` default cannot raise). -/
def wfLmpOpt : Option PVal → Bool
  | none => true
  | some (PVal.num _) => true
  | _ => false

/-- The price fields of a CAISO record: a positive `lmp_kwh`, or, when that
key is absent, a positive numeric `lmp`. -/
def wfLmpKwh : Option PVal → Option PVal → Bool
  | some (PVal.num q), _ => decide (0 < q)
  | some _, _ => false
  | none, some (PVal.num l) => decide (0 < l)
  | none, _ => false

/-- Well-formed CAISO records with positive prices. -/
def wfCaisoRec : PVal → Bool
  | PVal.vdict rd =>
      wfTsVal (pyGet rd "timestamp") && wfLmpOpt (pyGet rd "lmp") &&
        wfLmpKwh (pyGet rd "lmp_kwh") (pyGet rd "lmp")
  | _ => false

def wfCaiso (cp : List PVal) : Bool := cp.all wfCaisoRec

/-- The `summer` entry of a season table is absent or a dictionary with a
well-formed `months` field (all that `summerMonths` reads). -/
def wfSummerEntry : Option PVal → Bool
  | none => true
  | some (PVal.vdict s) => wfOptNumList (pyGet s "months")
  | some _ => false

/-- The resolver produced a positive numeric rate. -/
def isPosNum (v : PVal) : Prop := ∃ q : ℚ, v = PVal.num q ∧ 0 < q

/-- An optional resolver result that is positive-numeric when present. -/
def isPosOpt (v : Option PVal) : Prop := ∀ x, v = some x → isPosNum x

/-- A well-formed realtime price record, as the spec's data model defines it
(`RealtimePrice`): an instant plus a price already normalized to
currency/kWh (the `lmp_kwh` field the source reads). -/
structure PriceRec where
  ts : Ts
  lmp_kwh : ℚ
deriving DecidableEq, Repr

/-- The Python dictionary carrying a realtime price record. -/
def priceRecVal (r : PriceRec) : PVal :=
  PVal.vdict [("timestamp", PVal.time (some r.ts)),
              ("lmp_kwh", PVal.num r.lmp_kwh)]

/- ------------------------------------------------------------------
   Typed forecast points and recommendations (the spec's data model),
   and the recommendation generators.
   ------------------------------------------------------------------ -/

/-- A consumption forecast point (`{timestamp, predicted_value}`; the bound
and confidence fields are not read by the engine). -/
structure ConsPoint where
  ts : Ts
  predicted_value : ℚ
deriving DecidableEq, Repr

/-- A carbon-intensity forecast point. -/
structure CarbonPoint where
  ts : Ts
  carbon_intensity : ℚ
deriving DecidableEq, Repr

/-- A weather forecast point (only `temperature` and the timestamp are read
by the engine paths modelled here). -/
structure WeatherPoint where
  ts : Ts
  temperature : ℚ
deriving DecidableEq, Repr

/-- Shift an instant by `k` hours (`timedelta` arithmetic); the day key
carries, sub-hour parts are kept.  (`dow`/`month` are not adjusted — no
modelled computation reads them after a shift.) -/
def Ts.addHours (t : Ts) (k : Int) : Ts :=
  let tot : Int := (t.hour : Int) + k
  { t with dayKey := t.dayKey + tot.ediv 24, hour := (tot.emod 24).toNat }

/-- The `explanation` attached by `_add_explanation`. -/
structure Expl where
  confidence_label : String
  best_case : ℚ
  expected : ℚ
  worst_case : ℚ
deriving DecidableEq, Repr

/-- A recommendation.  Presentation-only fields (headline, description,
`supporting_data`, data sources, risk factors) are omitted; see header. -/
structure Rec where
  rtype : String
  cost_savings : ℚ
  co2_reduction : ℚ
  confidence : ℤ
  action_type : String
  time_start : Ts
  explanation : Option Expl
deriving DecidableEq, Repr

/-- `_add_explanation(recommendation, data_sources, risk_factors,
savings_uncertainty)`: attaches the confidence label and the savings range;
every other field is left unchanged. -/
def add_explanation (rec : Rec) (savings_uncertainty : ℚ) : Rec :=
  let cost_savings := rec.cost_savings
  let confidence_score := rec.confidence
  let confidence_label :=
    if confidence_score ≥ 85 then "high"
    else if confidence_score ≥ 70 then "medium"
    else "low"
  { rec with explanation := some (Expl.mk confidence_label
      (round2 (cost_savings * (1 + savings_uncertainty)))
      (round2 cost_savings)
      (round2 (cost_savings * (1 - savings_uncertainty)))) }

/- ------------------------------------------------------------------
   `generate_load_shift_recommendation`
   ------------------------------------------------------------------ -/

/-- One entry of `combined_scores`. -/
structure ScorePoint where
  ts : Ts
  score : ℚ
  carbon_intensity : ℚ
  predicted_consumption : ℚ
deriving DecidableEq, Repr

/-- The `combined_scores` loop: per consumption point, join the carbon
series by exact timestamp (default 40 gCO2/kWh), recompute both maxima (as
the source does inside the loop body) and normalize; a zero maximum makes
the division raise `ZeroDivisionError`. -/
def scoresLoop (cf0 : List ConsPoint) (cb : List CarbonPoint) :
    List ConsPoint → Py (List ScorePoint)
  | [] => .ok []
  | c :: rest => do
      let carbon_intensity :=
        ((cb.find? (fun x => x.ts == c.ts)).map
          (fun x => x.carbon_intensity)).getD 40
      let maxCons ← pyMax (cf0.map (fun x => x.predicted_value))
      let cons_norm ← qdiv c.predicted_value maxCons
      let maxCarb ← pyMax (cb.map (fun x => x.carbon_intensity))
      let carbon_norm ← qdiv carbon_intensity maxCarb
      let score := cons_norm * 0.3 + carbon_norm * 0.7
      let tail ← scoresLoop cf0 cb rest
      return ⟨c.ts, score, carbon_intensity, c.predicted_value⟩ :: tail

/-- `generate_load_shift_recommendation(consumption_forecast,
carbon_forecast, pricing_data, caiso_pricing)`.  Always returns a
recommendation when it does not raise (there is no `return None` path). -/
def generate_load_shift_recommendation (cf : List ConsPoint)
    (cb : List CarbonPoint) (pd : PVal) (cp : List PVal) : Py Rec := do
  let combined ← scoresLoop cf cb cf
  let best_window ← pyMinBy (fun s => s.score) combined
  let avg_score := npMean (combined.map (fun s => s.score))
  let reduction_ratio ← qdiv (avg_score - best_window.score) avg_score
  let potential_reduction_pct := reduction_ratio * 100
  let estimated_load : ℚ := 50
  let costs ← combined.mapM
    (fun s => calculate_electricity_cost estimated_load (some s.ts) pd cp)
  let avg_cost := npMean costs
  let best_window_cost ←
    calculate_electricity_cost estimated_load (some best_window.ts) pd cp
  let cost_savings := avg_cost - best_window_cost
  let avg_carbon := npMean (combined.map (fun s => s.carbon_intensity))
  let co2_reduction :=
    estimated_load * (avg_carbon - best_window.carbon_intensity) / 1000
  let _peak_carbon ← pyMax (combined.map (fun s => s.carbon_intensity))
  return { rtype := "carbon"
           cost_savings := round2 cost_savings
           co2_reduction := round2 co2_reduction
           confidence := min 95 (70 + pyInt potential_reduction_pct)
           action_type := "load_shift"
           time_start := best_window.ts
           explanation := none }

/- ------------------------------------------------------------------
   `generate_peak_avoidance_recommendation`
   ------------------------------------------------------------------ -/

/-- The interpolation position `0.75·(n−1)` used by `np.percentile(·, 75)`. -/
def percentilePos (n : ℕ) : ℚ := (3 * ((n : ℚ) - 1)) / 4

/-- Its integer part (the lower neighbour's index). -/
def percentileIdx (n : ℕ) : ℕ := ⌊percentilePos n⌋.toNat

/-- Linear interpolation between the two neighbours of the position in the
sorted sample of size `n`. -/
def percentileInterp (s : List ℚ) (n : ℕ) : ℚ :=
  let i := percentileIdx n
  let frac := percentilePos n - (i : ℚ)
  if i + 1 < n then s.getD i 0 + frac * (s.getD (i + 1) 0 - s.getD i 0)
  else s.getD i 0

/-- `np.percentile(values, 75)` with numpy's default linear interpolation:
sort ascending, position `0.75·(n−1)`, interpolate between the neighbours;
raises on an empty sample. -/
def npPercentile75 (l : List ℚ) : Py ℚ :=
  match l with
  | [] => .error ()
  | _ =>
      .ok (percentileInterp (l.mergeSort (fun a b => decide (a ≤ b)))
        l.length)

/-- Python `min` over the resolver's heterogeneous return values: numeric
when every rate is a number, raising otherwise (mixed-type comparison). -/
def pyMinRates (l : List PVal) : Py ℚ := do
  let qs ← l.mapM (fun v =>
    match v with
    | PVal.num q => Except.ok q
    | _ => (Except.error () : Py ℚ))
  pyMin qs

/-- `generate_peak_avoidance_recommendation(consumption_forecast,
pricing_data, caiso_pricing)`. -/
def generate_peak_avoidance_recommendation (cf : List ConsPoint) (pd : PVal)
    (cp : List PVal) : Py (Option Rec) := do
  let values := cf.map (fun f => f.predicted_value)
  let peak_threshold ← npPercentile75 values
  let peak_periods := cf.filter (fun f => decide (f.predicted_value ≥ peak_threshold))
  match peak_periods with
  | [] => return none
  | first_peak :: _ => do
      let avg_peak_load := npMean (peak_periods.map (fun p => p.predicted_value))
      let reducible_load := avg_peak_load * 0.20
      let peak_period_costs ← peak_periods.mapM
        (fun p => calculate_electricity_cost reducible_load (some p.ts) pd cp)
      let total_peak_cost := peak_period_costs.sum
      let all_rates := cf.map (fun f => get_rate_at_time (some f.ts) pd cp)
      let min_rate ← if all_rates.isEmpty then pure (0.08 : ℚ)
        else pyMinRates all_rates
      let alternative_cost := reducible_load * min_rate * peak_periods.length
      let cost_savings := total_peak_cost - alternative_cost
      return some { rtype := "cost"
                    cost_savings := round2 cost_savings
                    co2_reduction := round2 (reducible_load * 0.04)
                    confidence := 85
                    action_type := "demand_response"
                    time_start := first_peak.ts
                    explanation := none }

/- ------------------------------------------------------------------
   `generate_ev_charging_recommendation`
   ------------------------------------------------------------------ -/

/-- The overnight classifier of the EV generator:
`22 <= dt.hour or dt.hour <= 6`. -/
def evOvernightPred (p : ConsPoint) : Bool :=
  22 ≤ p.ts.hour || p.ts.hour ≤ 6

/-- The daytime classifier of the EV generator: `6 < dt.hour < 22`. -/
def evDaytimePred (p : ConsPoint) : Bool :=
  6 < p.ts.hour && p.ts.hour < 22

/-- The overnight slots scanned by the EV generator (first 24 points). -/
def evOvernightPeriods (cf : List ConsPoint) : List ConsPoint :=
  (cf.take 24).filter evOvernightPred

/-- The daytime slots averaged by the EV generator (first 24 points). -/
def evDaytimePeriods (cf : List ConsPoint) : List ConsPoint :=
  (cf.take 24).filter evDaytimePred

/-- `generate_ev_charging_recommendation(consumption_forecast, pricing_data,
caiso_pricing, ev_fleet_size)`. -/
def generate_ev_charging_recommendation (cf : List ConsPoint) (pd : PVal)
    (cp : List PVal) (ev_fleet_size : ℕ) : Py (Option Rec) := do
  if ev_fleet_size = 0 then return none
  let overnight_periods := (evOvernightPeriods cf).map
    (fun p => (p.ts, get_rate_at_time (some p.ts) pd cp))
  match overnight_periods with
  | [] => return none
  | _ :: _ => do
      let overnightQ ← overnight_periods.mapM (fun pr =>
        match pr.2 with
        | PVal.num q => Except.ok (pr.1, q)
        | _ => (Except.error () : Py (Ts × ℚ)))
      let sorted_overnight := overnightQ.mergeSort
        (fun a b => decide (a.2 ≤ b.2))
      match sorted_overnight with
      | [] => return none
      | cheapest_overnight :: _ => do
          let daytime_periods := evDaytimePeriods cf
          let avg_daytime_rate ←
            if daytime_periods.isEmpty then pure (0.20 : ℚ)
            else do
              let dayRates ← daytime_periods.mapM (fun p =>
                match get_rate_at_time (some p.ts) pd cp with
                | PVal.num q => Except.ok q
                | _ => (Except.error () : Py ℚ))
              pure (npMean dayRates)
          let ev_charge_kwh : ℚ := 50 * ev_fleet_size
          let overnight_cost := ev_charge_kwh * cheapest_overnight.2
          let daytime_cost := ev_charge_kwh * avg_daytime_rate
          let savings := daytime_cost - overnight_cost
          if savings < 5 then return none
          let _pct_cheaper ←
            qdiv ((avg_daytime_rate - cheapest_overnight.2) * 100)
              avg_daytime_rate
          return some (add_explanation
            { rtype := "ev_charging"
              cost_savings := round2 savings
              co2_reduction := 0
              confidence := 90
              action_type := "ev_charging"
              time_start := cheapest_overnight.1
              explanation := none } 0.10)

/- ------------------------------------------------------------------
   `generate_weather_alert`
   ------------------------------------------------------------------ -/

/-- `generate_weather_alert(weather_forecast, consumption_forecast,
pricing_data, caiso_pricing)`.  The source's
`baseline_consumption = np.mean(consumption_forecast[:duration_hours])`
is not guarded by a nonemptiness check: with an empty consumption series
and at least three hot weather points the source surfaces a recommendation
whose `cost_savings` and `co2_reduction` are NaN.  `npMean` returns `0`
there instead, so every statement about this generator's surfaced values
assumes a non-empty consumption series (`cf ≠ []`), under which
`consumption_forecast[:duration_hours]` is non-empty (`duration_hours ≥ 3`
on the surfacing branch) and the model agrees with the source. -/
def generate_weather_alert (wf : List WeatherPoint) (cf : List ConsPoint)
    (pd : PVal) (cp : List PVal) : Py (Option Rec) := do
  if wf.isEmpty then return none
  let hot_periods := wf.filter (fun w => decide (w.temperature > 32))
  if hot_periods.length ≥ 3 then
    match hot_periods with
    | [] => return none
    | h0 :: _ => do
        let avg_temp := npMean (hot_periods.map (fun w => w.temperature))
        let duration_hours := hot_periods.length
        let baseline_temp : ℚ := 25
        let temp_increase := avg_temp - baseline_temp
        let consumption_increase_pct := temp_increase * 1.0
        let baseline_consumption :=
          npMean ((cf.take duration_hours).map (fun c => c.predicted_value))
        let increased_consumption :=
          baseline_consumption * (consumption_increase_pct / 100)
        let additional_cost ← calculate_electricity_cost
          (increased_consumption * duration_hours) (some h0.ts) pd cp
        let precool_savings := additional_cost * 0.30
        let _peak_temperature ← pyMax (hot_periods.map (fun w => w.temperature))
        return some (add_explanation
          { rtype := "weather_alert"
            cost_savings := round2 precool_savings
            co2_reduction := round2 (increased_consumption * 0.04 * 0.3)
            confidence := 85
            action_type := "weather_response"
            time_start := h0.ts.addHours (-8)
            explanation := none } 0.20)
  else
    return none

/- ------------------------------------------------------------------
   `generate_efficiency_alert`
   ------------------------------------------------------------------ -/

/-- `generate_efficiency_alert(consumption_forecast, historical_baseline)`.
The source stamps the recommendation with `datetime.now()`; the clock is an
explicit `now` argument here. -/
def generate_efficiency_alert (cf : List ConsPoint)
    (historical_baseline : Option ℚ) (now : Ts) : Py (Option Rec) := do
  match cf, historical_baseline with
  | [], _ => return none
  | _, none => return none
  | _ :: _, some baseline => do
      let current_avg := npMean (cf.map (fun c => c.predicted_value))
      let ratio ← qdiv (current_avg - baseline) baseline
      let increase_pct := ratio * 100
      if increase_pct > 20 then
        let excess_consumption := current_avg - baseline
        let monthly_waste_kwh := excess_consumption * 24 * 30
        let monthly_cost_waste := monthly_waste_kwh * 0.12
        return some (add_explanation
          { rtype := "maintenance_alert"
            cost_savings := round2 monthly_cost_waste
            co2_reduction := round2 (monthly_waste_kwh * 0.04)
            confidence := 75
            action_type := "maintenance"
            time_start := now
            explanation := none } 0.25)
      else
        return none

/- ------------------------------------------------------------------
   `generate_hvac_precool_recommendation`
   ------------------------------------------------------------------ -/

/-- `generate_hvac_precool_recommendation(consumption_forecast,
weather_forecast, pricing_data, caiso_pricing)`. -/
def generate_hvac_precool_recommendation (cf : List ConsPoint)
    (wf : List WeatherPoint) (pd : PVal) (cp : List PVal) :
    Py (Option Rec) := do
  if wf.length < 8 then return none
  let all_rates := (cf.take 24).map
    (fun f => (f.ts, get_rate_at_time (some f.ts) pd cp))
  match all_rates with
  | [] => return none
  | _ :: _ => do
      let ratesQ ← all_rates.mapM (fun fr =>
        match fr.2 with
        | PVal.num q => Except.ok (fr.1, q)
        | _ => (Except.error () : Py (Ts × ℚ)))
      let sorted_rates := ratesQ.mergeSort (fun a b => decide (a.2 ≤ b.2))
      match sorted_rates, sorted_rates.getLast? with
      | cheapest_period :: _, some most_expensive_period => do
          let ratio ← qdiv
            (most_expensive_period.2 - cheapest_period.2)
            most_expensive_period.2
          let price_spread_pct := ratio * 100
          if price_spread_pct < 40 then return none
          let avg_consumption :=
            npMean ((cf.take 8).map (fun c => c.predicted_value))
          let hvac_load := avg_consumption * 0.40
          let precool_hours : ℚ := 2
          let coast_hours : ℚ := 4
          let normal_cost ← calculate_electricity_cost
            (hvac_load * coast_hours) (some most_expensive_period.1) pd cp
          let precool_cost ← calculate_electricity_cost
            (hvac_load * precool_hours * 1.2) (some cheapest_period.1) pd cp
          let savings := normal_cost - precool_cost
          if savings ≤ 1 then return none
          return some (add_explanation
            { rtype := "hvac_optimization"
              cost_savings := round2 savings
              co2_reduction := round2 (hvac_load * 0.2 * 0.04)
              confidence := 80
              action_type := "hvac_precool"
              time_start := cheapest_period.1
              explanation := none } 0.20)
      | _, _ => return none

/- ------------------------------------------------------------------
   `generate_recommendations` (the orchestrator), with the seven
   generator invocations abstracted as outcomes: each `try` block either
   observed an exception (`raised`) or a `Recommendation | None` result
   (`produced`).  A generator whose guard is off (no weather forecast, no
   baseline, no EV fleet) contributes `produced none`.  Slots appear in
   the source's fixed order: LoadShift, PeakAvoidance,
   DemandChargeAvoidance, WeatherAlert, EfficiencyAlert, HVACPrecool,
   EVCharging; the first three are explained by the orchestrator with
   uncertainties 0.15, 0.15, 0.10, the rest arrive pre-explained.
   ------------------------------------------------------------------ -/

inductive GenOutcome where
  | raised
  | produced (r : Option Rec)
deriving DecidableEq, Repr

/-- The orchestrator-side `_add_explanation` wrapping for slot `i`. -/
def explainSlot (i : ℕ) (r : Rec) : Rec :=
  if i = 0 then add_explanation r 0.15
  else if i = 1 then add_explanation r 0.15
  else if i = 2 then add_explanation r 0.10
  else r

/-- `recommendations` as collected by the seven `try` blocks: an exception
or a `None` contributes nothing; a produced recommendation is appended (in
slot order), explained for the orchestrator-explained slots. -/
def collectRecs : ℕ → List GenOutcome → List Rec
  | _, [] => []
  | i, o :: rest =>
      (match o with
       | GenOutcome.produced (some r) => [explainSlot i r]
       | _ => []) ++ collectRecs (i + 1) rest

/-- `recommendations.sort(key=lambda x: x.get('cost_savings', 0),
reverse=True)`: a stable descending sort on `cost_savings` (Python's sort
is stable; so is `mergeSort`). -/
def rankRecs (l : List Rec) : List Rec :=
  l.mergeSort (fun a b => decide (b.cost_savings ≤ a.cost_savings))

/-- `generate_recommendations`: collect, rank, return the top 5. -/
def generate_recommendations (os : List GenOutcome) : List Rec :=
  (rankRecs (collectRecs 0 os)).take 5

/-- The load-shift input of the C2 counterexample: one point whose carbon
intensity is zero, so the carbon maximum is zero. -/
def c2cf : List ConsPoint := [⟨⟨0, 1, 0, 6, 0⟩, 5⟩]

def c2cb : List CarbonPoint := [⟨⟨0, 1, 0, 6, 0⟩, 0⟩]

/-- The numeric rate the resolver yields on well-formed data. -/
def rateQ (ts : Option Ts) (pd : PVal) (cp : List PVal) : ℚ :=
  match get_rate_at_time ts pd cp with
  | PVal.num r => r
  | _ => 0

/-- A bare recommendation with the given savings (used for the orchestrator
counterexamples). -/
def cRec (s : ℚ) : Rec :=
  ⟨"cost", s, 0, 80, "demand_response", ⟨0, 0, 0, 1, 0⟩, none⟩

/-- The outcome vector of the C5 counterexample: the first generator raises
and the remaining six produce recommendations with distinct savings. -/
def c5os : List GenOutcome :=
  [GenOutcome.raised,
   GenOutcome.produced (some (cRec 6)),
   GenOutcome.produced (some (cRec 5)),
   GenOutcome.produced (some (cRec 4)),
   GenOutcome.produced (some (cRec 3)),
   GenOutcome.produced (some (cRec 2)),
   GenOutcome.produced (some (cRec 1))]

/-- The outcome vector of seven non-null candidates. -/
def sevenOutcomes (r1 r2 r3 r4 r5 r6 r7 : Rec) : List GenOutcome :=
  [GenOutcome.produced (some r1), GenOutcome.produced (some r2),
   GenOutcome.produced (some r3), GenOutcome.produced (some r4),
   GenOutcome.produced (some r5), GenOutcome.produced (some r6),
   GenOutcome.produced (some r7)]

def c1t0 : Ts := ⟨0, 1, 3, 6, 0⟩

def c1t1 : Ts := ⟨0, 12, 3, 6, 0⟩

/-- C1 counterexample consumption: tiny load at 01:00, large load at noon. -/
def c1cf : List ConsPoint := [⟨c1t0, 1⟩, ⟨c1t1, 100⟩]

/-- C1 counterexample carbon: dirtier at 01:00 than at noon. -/
def c1cb : List CarbonPoint := [⟨c1t0, 60⟩, ⟨c1t1, 50⟩]

/-- C1 counterexample tariff: expensive overnight, cheap daytime (legacy
flat-periods schema). -/
def c1pd : PVal :=
  PVal.vdict [("rate_structure", PVal.vdict
    [("peak", PVal.vdict [("rate", PVal.num 0.5),
        ("hours", PVal.vlist [PVal.vlist [PVal.num 0, PVal.num 7]])]),
     ("off", PVal.vdict [("rate", PVal.num 0.1),
        ("hours", PVal.vlist [PVal.vlist [PVal.num 7, PVal.num 24]])])])]

def c1score0 : ℚ := 1 / 100 * 0.3 + 60 / 60 * 0.7

def c1score1 : ℚ := 100 / 100 * 0.3 + 50 / 60 * 0.7

lemma pyMemNum_of_mem {days : List ℚ} {n : ℚ} (h : n ∈ days) :
    pyMemNum n (PVal.vlist (days.map PVal.num)) = .ok true := by
  simp only [pyMemNum, Except.ok.injEq]
  rw [List.any_eq_true]
  exact ⟨PVal.num n, List.mem_map_of_mem _ h, by simp [pyEqNum]⟩

lemma is_in_period_c8cfgA (days : List ℚ) (dow : Nat) (h : (dow : ℚ) ∈ days)
    (hour : Nat) :
    is_in_period hour dow (c8cfgA (PVal.vlist (days.map PVal.num)))
      = hourInRanges (hour : ℚ)
          (PVal.vlist [PVal.vlist [PVal.num 0, PVal.num 7],
                       PVal.vlist [PVal.num 19, PVal.num 24]]) := by
  have e : is_in_period hour dow (c8cfgA (PVal.vlist (days.map PVal.num)))
      = (pyMemNum (dow : ℚ) (PVal.vlist (days.map PVal.num))).bind
          (fun dayOk =>
            if !dayOk then Except.ok false
            else hourInRanges (hour : ℚ)
              (PVal.vlist [PVal.vlist [PVal.num 0, PVal.num 7],
                           PVal.vlist [PVal.num 19, PVal.num 24]])) := rfl
  rw [e, pyMemNum_of_mem h]
  rfl

lemma is_in_period_c8cfgB (days : List ℚ) (dow : Nat) (h : (dow : ℚ) ∈ days)
    (hour : Nat) :
    is_in_period hour dow (c8cfgB (PVal.vlist (days.map PVal.num)))
      = hourInRanges (hour : ℚ)
          (PVal.vlist [PVal.vlist [PVal.num 19, PVal.num 7]]) := by
  have e : is_in_period hour dow (c8cfgB (PVal.vlist (days.map PVal.num)))
      = (pyMemNum (dow : ℚ) (PVal.vlist (days.map PVal.num))).bind
          (fun dayOk =>
            if !dayOk then Except.ok false
            else hourInRanges (hour : ℚ)
              (PVal.vlist [PVal.vlist [PVal.num 19, PVal.num 7]])) := rfl
  rw [e, pyMemNum_of_mem h]
  rfl

/-- C8: the period-match rule treats each `[start, end)` hours range as
half-open and a range with `start > end` as wrapping past midnight.  For
every day contained in the period's `days` list: a period with
`hours=[[0,7],[19,24]]` matches hour 6 and hour 23 and rejects hour 7 and
hour 18; a period with `hours=[[19,7]]` matches hours 20 and 3 and rejects
hour 10. -/
theorem c8_period_boundaries (days : List ℚ) (dow : Nat)
    (h : (dow : ℚ) ∈ days) :
    is_in_period 6 dow (c8cfgA (PVal.vlist (days.map PVal.num))) = .ok true ∧
    is_in_period 23 dow (c8cfgA (PVal.vlist (days.map PVal.num))) = .ok true ∧
    is_in_period 7 dow (c8cfgA (PVal.vlist (days.map PVal.num))) = .ok false ∧
    is_in_period 18 dow (c8cfgA (PVal.vlist (days.map PVal.num))) = .ok false ∧
    is_in_period 20 dow (c8cfgB (PVal.vlist (days.map PVal.num))) = .ok true ∧
    is_in_period 3 dow (c8cfgB (PVal.vlist (days.map PVal.num))) = .ok true ∧
    is_in_period 10 dow (c8cfgB (PVal.vlist (days.map PVal.num))) = .ok false := by
  refine ⟨?_, ?_, ?_, ?_, ?_, ?_, ?_⟩ <;>
    first
      | (rw [is_in_period_c8cfgA days dow h]; rfl)
      | (rw [is_in_period_c8cfgB days dow h]; rfl)

/-- C8 witness: the theorem applied to the all-week days list and Wednesday. -/
theorem c8_period_boundaries_witness :
    ((2 : Nat) : ℚ) ∈ [(0 : ℚ), 1, 2, 3, 4, 5, 6] ∧
    is_in_period 6 2 (c8cfgA (PVal.vlist ([(0 : ℚ), 1, 2, 3, 4, 5, 6].map PVal.num)))
      = .ok true := by
  refine ⟨by norm_num, ?_⟩
  exact (c8_period_boundaries [(0 : ℚ), 1, 2, 3, 4, 5, 6] 2 (by norm_num)).1

/-- C3 counterexample: with `off_peak_rate = 0.05` present and a non-empty
`rate_structure` dictionary matching no variant, the resolver returns the
constant 0.12, not the profile's `off_peak_rate`, contradicting the claim. -/
theorem c3_counterexample :
    get_rate_at_time (some c3ts) c3pd [] = PVal.num 0.12 ∧
    pyGet [("rate_structure", PVal.vdict [("foo", PVal.num 1)]),
           ("off_peak_rate", PVal.num 0.05)] "off_peak_rate"
      = some (PVal.num 0.05) ∧
    (0.12 : ℚ) ≠ 0.05 := by
  refine ⟨rfl, rfl, by norm_num⟩

@[simp] lemma py_bind_ok {α β : Type} (a : α) (f : α → Py β) :
    (Except.ok a : Py α) >>= f = f a := rfl

@[simp] lemma py_bind_error {α β : Type} (f : α → Py β) :
    (Except.error () : Py α) >>= f = .error () := rfl

@[simp] lemma py_pure {α : Type} (a : α) : (pure a : Py α) = Except.ok a := rfl

lemma posNum_012 : isPosNum (PVal.num 0.12) := ⟨0.12, rfl, by norm_num⟩

lemma hourInRanges_go_ok {l : List PVal}
    (hw : (l.all fun e =>
      match e with
      | PVal.vlist [PVal.num _, PVal.num _] => true
      | _ => false) = true) (h : ℚ) :
    ∃ b, hourInRanges.go h l = .ok b := by
  induction l with
  | nil => exact ⟨false, rfl⟩
  | cons r rest ih =>
      rw [List.all_cons, Bool.and_eq_true] at hw
      obtain ⟨hr, hrest⟩ := hw
      obtain ⟨b, hb⟩ := ih hrest
      match r, hr with
      | PVal.vlist [PVal.num s, PVal.num e], _ =>
          simp only [hourInRanges.go]
          split
          · split
            · exact ⟨true, rfl⟩
            · exact ⟨b, hb⟩
          · split
            · exact ⟨true, rfl⟩
            · exact ⟨b, hb⟩

lemma hourInRanges_ok {v : PVal} (hv : wfHours v = true) (h : ℚ) :
    ∃ b, hourInRanges h v = .ok b := by
  match v, hv with
  | PVal.vlist l, hv => exact hourInRanges_go_ok hv h

lemma pyMemNum_ok {v : PVal} (hv : wfNumList v = true) (n : ℚ) :
    ∃ b, pyMemNum n v = .ok b := by
  match v, hv with
  | PVal.vlist l, _ => exact ⟨_, rfl⟩

lemma pyGetD_wfNumList {cfg : List (String × PVal)} {k : String} {dflt : PVal}
    (hopt : wfOptNumList (pyGet cfg k) = true) (hd : wfNumList dflt = true) :
    wfNumList (pyGetD cfg k dflt) = true := by
  unfold pyGetD
  cases hg : pyGet cfg k with
  | none => exact hd
  | some v => rw [hg] at hopt; exact hopt

lemma pyGetD_wfHours {cfg : List (String × PVal)} {k : String} {dflt : PVal}
    (hopt : wfOptHours (pyGet cfg k) = true) (hd : wfHours dflt = true) :
    wfHours (pyGetD cfg k dflt) = true := by
  unfold pyGetD
  cases hg : pyGet cfg k with
  | none => exact hd
  | some v => rw [hg] at hopt; exact hopt

lemma is_in_period_ok {cfg : List (String × PVal)}
    (hc : wfPeriodCfg cfg = true) (h d : Nat) :
    ∃ b, is_in_period h d cfg = .ok b := by
  simp only [wfPeriodCfg, Bool.and_eq_true] at hc
  obtain ⟨⟨hdays, hhours⟩, _⟩ := hc
  have e : is_in_period h d cfg
      = (pyMemNum (d : ℚ) (pyGetD cfg "days"
          (PVal.vlist [PVal.num 0, PVal.num 1, PVal.num 2, PVal.num 3,
                       PVal.num 4, PVal.num 5, PVal.num 6]))).bind
          (fun dayOk =>
            if !dayOk then Except.ok false
            else hourInRanges (h : ℚ) (pyGetD cfg "hours" (PVal.vlist []))) := rfl
  rw [e]
  obtain ⟨b, hb⟩ := pyMemNum_ok
    (@pyGetD_wfNumList cfg "days"
      (PVal.vlist [PVal.num 0, PVal.num 1, PVal.num 2, PVal.num 3,
                   PVal.num 4, PVal.num 5, PVal.num 6]) hdays (by rfl)) (d : ℚ)
  rw [hb]
  cases b with
  | false => exact ⟨false, rfl⟩
  | true =>
      obtain ⟨b2, hb2⟩ := hourInRanges_ok
        (@pyGetD_wfHours cfg "hours" (PVal.vlist []) hhours (by rfl)) (h : ℚ)
      exact ⟨b2, by simpa using hb2⟩

lemma wfRatePos_getD {cfg : List (String × PVal)} {k : String}
    (hr : wfRatePos (pyGet cfg k) = true) :
    isPosNum (pyGetD cfg k (PVal.num 0.12)) := by
  unfold pyGetD
  cases hg : pyGet cfg k with
  | none => exact posNum_012
  | some v =>
      rw [hg] at hr
      match v, hr with
      | PVal.num r, hr => exact ⟨r, rfl, by simpa [wfRatePos] using hr⟩

lemma wfPeriodCfg_rate_pos {cfg : List (String × PVal)}
    (hc : wfPeriodCfg cfg = true) :
    isPosNum (pyGetD cfg "rate" (PVal.num 0.12)) := by
  simp only [wfPeriodCfg, Bool.and_eq_true] at hc
  exact wfRatePos_getD hc.2

lemma pyGet_isSome_eq_any (d : List (String × PVal)) (k : String) :
    (pyGet d k).isSome = d.any (fun kv => kv.1 == k) := by
  induction d with
  | nil => rfl
  | cons kv rest ih =>
      simp only [pyGet, List.find?_cons, List.any_cons] at *
      cases h : (kv.1 == k) <;> simp [h, ih]

lemma pyMemStr_dict (d : List (String × PVal)) (s : String) :
    pyMemStr s (PVal.vdict d) = .ok (pyGet d s).isSome := by
  simp only [pyMemStr, pyGet_isSome_eq_any]

lemma periodsLoop_ok {pl : List (String × PVal)}
    (hw : wfPeriodsList pl = true) (h d : Nat) :
    ∃ res, periodsLoop h d pl = .ok res ∧ isPosOpt res := by
  induction pl with
  | nil => exact ⟨none, rfl, by intro x hx; cases hx⟩
  | cons kv rest ih =>
      rw [wfPeriodsList, List.all_cons, Bool.and_eq_true] at hw
      obtain ⟨hkv, hrest⟩ := hw
      obtain ⟨res, hres, hpos⟩ := ih hrest
      obtain ⟨k, cfgv⟩ := kv
      cases cfgv with
      | vdict cfg =>
          replace hkv : wfPeriodCfg cfg = true := hkv
          obtain ⟨b, hb⟩ := is_in_period_ok hkv h d
          simp only [periodsLoop, hb, py_bind_ok]
          cases b with
          | true =>
              refine ⟨some (pyGetD cfg "rate" (PVal.num 0.12)), rfl, ?_⟩
              intro x hx
              cases hx
              exact wfPeriodCfg_rate_pos hkv
          | false => exact ⟨res, by simpa using hres, hpos⟩
      | num q => exact ⟨res, hres, hpos⟩
      | str s => exact ⟨res, hres, hpos⟩
      | time t => exact ⟨res, hres, hpos⟩
      | vlist l => exact ⟨res, hres, hpos⟩
      | vbool b => exact ⟨res, hres, hpos⟩
      | pynone => exact ⟨res, hres, hpos⟩

lemma summerMonths_ok {sd : List (String × PVal)}
    (hw : wfSummerEntry (pyGet sd "summer") = true) :
    ∃ mv, summerMonths sd = .ok mv ∧ wfNumList mv = true := by
  unfold summerMonths pyGetD
  cases hg : pyGet sd "summer" with
  | none => exact ⟨_, rfl, rfl⟩
  | some v =>
      rw [hg] at hw
      match v, hw with
      | PVal.vdict s, hw =>
          replace hw : wfOptNumList (pyGet s "months") = true := hw
          refine ⟨_, rfl, ?_⟩
          cases hg2 : pyGet s "months" with
          | none => rfl
          | some mv => rw [hg2] at hw; simpa using hw

lemma wfSummerEntry_of_seasonVal {sd : List (String × PVal)}
    (h : wfOptSeasonVal (pyGet sd "summer") = true) :
    wfSummerEntry (pyGet sd "summer") = true := by
  cases hg : pyGet sd "summer" with
  | none => rfl
  | some v =>
      rw [hg] at h
      replace h : wfSeasonVal v = true := h
      match v, h with
      | PVal.vdict s, h =>
          simp only [wfSeasonVal, Bool.and_eq_true] at h
          exact h.1

lemma wfSummerEntry_of_touSeason {sd : List (String × PVal)}
    (h : wfOptTouSeason (pyGet sd "summer") = true) :
    wfSummerEntry (pyGet sd "summer") = true := by
  cases hg : pyGet sd "summer" with
  | none => rfl
  | some v =>
      rw [hg] at h
      replace h : wfTouSeason v = true := h
      match v, h with
      | PVal.vdict s, h =>
          simp only [wfTouSeason, Bool.and_eq_true] at h
          exact h.1

lemma format1Season_ok {svo : Option PVal} (hour dow : Nat)
    (hw : wfOptSeasonVal svo = true) :
    ∃ res, format1Season hour dow svo = .ok res ∧ isPosOpt res := by
  cases svo with
  | none => exact ⟨none, rfl, by intro x hx; cases hx⟩
  | some sv =>
      replace hw : wfSeasonVal sv = true := hw
      match sv, hw with
      | PVal.vdict s, hw =>
          simp only [wfSeasonVal, Bool.and_eq_true] at hw
          obtain ⟨_, hper⟩ := hw
          simp only [format1Season, pyMemStr_dict, py_bind_ok]
          cases hp : pyGet s "periods" with
          | none => exact ⟨none, rfl, by intro x hx; cases hx⟩
          | some p =>
              rw [hp] at hper
              match p, hper with
              | PVal.vdict pl, hper =>
                  replace hper : wfPeriodsList pl = true := hper
                  obtain ⟨res, hres, hpos⟩ := periodsLoop_ok hper hour dow
                  refine ⟨res, ?_, hpos⟩
                  simp only [Option.isSome_some, if_true, pySubscript, hp,
                    py_bind_ok]
                  exact hres

lemma format1Rate_ok {rsd : List (String × PVal)} (hour dow month : Nat)
    (hw : wfSeasons (pyGet rsd "seasons") = true) :
    ∃ res, format1Rate rsd hour dow month = .ok res ∧ isPosOpt res := by
  unfold format1Rate
  split
  · rename_i sd heq
    rw [heq] at hw
    replace hw : (wfOptSeasonVal (pyGet sd "summer") &&
        wfOptSeasonVal (pyGet sd "winter")) = true := hw
    rw [Bool.and_eq_true] at hw
    obtain ⟨hsum, hwin⟩ := hw
    obtain ⟨mv, hmv, hmvwf⟩ := summerMonths_ok (wfSummerEntry_of_seasonVal hsum)
    rw [hmv]
    simp only [py_bind_ok]
    obtain ⟨b, hb⟩ := pyMemNum_ok hmvwf (month : ℚ)
    rw [hb]
    simp only [py_bind_ok]
    cases b with
    | true => exact format1Season_ok hour dow hsum
    | false => exact format1Season_ok hour dow hwin
  · exact ⟨none, rfl, by intro x hx; cases hx⟩

lemma touPeriodsLoop_ok {scd chd : List (String × PVal)} (hour : Nat)
    (ps : List String)
    (hsc : (ps.all fun p => wfOptHours (pyGet scd p)) = true)
    (hch : (ps.all fun p => wfRatePos (pyGet chd p)) = true) :
    ∃ res, touPeriodsLoop hour (PVal.vdict scd) chd ps = .ok res ∧
      isPosOpt res := by
  induction ps with
  | nil => exact ⟨none, rfl, by intro x hx; cases hx⟩
  | cons p rest ih =>
      rw [List.all_cons, Bool.and_eq_true] at hsc hch
      obtain ⟨hs1, hs2⟩ := hsc
      obtain ⟨hc1, hc2⟩ := hch
      obtain ⟨res, hres, hpos⟩ := ih hs2 hc2
      simp only [touPeriodsLoop, pyMemStr_dict, py_bind_ok]
      cases hp : pyGet scd p with
      | none => exact ⟨res, hres, hpos⟩
      | some hrv =>
          rw [hp] at hs1
          simp only [Option.isSome_some, if_true, pySubscript, hp, py_bind_ok]
          obtain ⟨b, hb⟩ := hourInRanges_ok hs1 (hour : ℚ)
          rw [hb]
          simp only [py_bind_ok]
          cases b with
          | false => exact ⟨res, hres, hpos⟩
          | true =>
              refine ⟨some (pyGetD chd p (PVal.num 0.12)), rfl, ?_⟩
              intro x hx
              cases hx
              exact wfRatePos_getD hc1

lemma format2Season_ok {scfgo : Option PVal} {charges : PVal} (hour : Nat)
    (hsc : wfOptTouSeason scfgo = true) (hch : wfCharges charges = true) :
    ∃ res, format2Season hour scfgo charges = .ok res ∧ isPosOpt res := by
  cases scfgo with
  | none =>
      refine ⟨none, ?_, by intro x hx; cases hx⟩
      unfold format2Season
      cases charges <;> rfl
  | some scfg =>
      replace hsc : wfTouSeason scfg = true := hsc
      match scfg, hsc with
      | PVal.vdict scd, hsc =>
          simp only [wfTouSeason, Bool.and_eq_true] at hsc
          obtain ⟨_, hranges⟩ := hsc
          cases charges with
          | vdict chd =>
              exact touPeriodsLoop_ok hour _ hranges (by simpa [wfCharges] using hch)
          | num q => exact ⟨none, rfl, by intro x hx; cases hx⟩
          | str s => exact ⟨none, rfl, by intro x hx; cases hx⟩
          | time t => exact ⟨none, rfl, by intro x hx; cases hx⟩
          | vlist l => exact ⟨none, rfl, by intro x hx; cases hx⟩
          | vbool b => exact ⟨none, rfl, by intro x hx; cases hx⟩
          | pynone => exact ⟨none, rfl, by intro x hx; cases hx⟩

lemma format2Rate_ok {rsd : List (String × PVal)} (hour month : Nat)
    (hw : wfTouPair (pyGet rsd "timeOfUse") (pyGet rsd "energyCharges") = true) :
    ∃ res, format2Rate rsd hour month = .ok res ∧ isPosOpt res := by
  unfold format2Rate
  split
  · rename_i tou charges heq1 heq2
    rw [heq1, heq2] at hw
    replace hw : (wfTou tou && wfCharges charges) = true := hw
    rw [Bool.and_eq_true] at hw
    obtain ⟨htou, hch⟩ := hw
    match tou, htou with
    | PVal.vdict td, htou =>
        replace htou : (wfOptTouSeason (pyGet td "summer") &&
            wfOptTouSeason (pyGet td "winter")) = true := htou
        rw [Bool.and_eq_true] at htou
        obtain ⟨hsum, hwin⟩ := htou
        simp only [PVal.asDictE, py_bind_ok]
        obtain ⟨mv, hmv, hmvwf⟩ :=
          summerMonths_ok (wfSummerEntry_of_touSeason hsum)
        rw [hmv]
        simp only [py_bind_ok]
        obtain ⟨b, hb⟩ := pyMemNum_ok hmvwf (month : ℚ)
        rw [hb]
        simp only [py_bind_ok]
        cases b with
        | true => exact format2Season_ok hour hsum hch
        | false => exact format2Season_ok hour hwin hch
  · exact ⟨none, rfl, by intro x hx; cases hx⟩

lemma legacyLoop_ok {pl : List (String × PVal)} (hour dow : Nat)
    (hw : (pl.all fun kv => wfLegacyEntry kv.2) = true) :
    ∃ res, legacyLoop hour dow pl = .ok res ∧ isPosOpt res := by
  induction pl with
  | nil => exact ⟨none, rfl, by intro x hx; cases hx⟩
  | cons kv rest ih =>
      rw [List.all_cons, Bool.and_eq_true] at hw
      obtain ⟨hkv, hrest⟩ := hw
      obtain ⟨res, hres, hpos⟩ := ih hrest
      obtain ⟨k, cfgv⟩ := kv
      cases cfgv with
      | vdict cfg =>
          replace hkv : (!(pyGet cfg "rate").isSome || wfPeriodCfg cfg) = true := hkv
          simp only [legacyLoop]
          cases hr : (pyGet cfg "rate").isSome with
          | false => exact ⟨res, by simpa [hr] using hres, hpos⟩
          | true =>
              rw [hr] at hkv
              simp only [Bool.not_true, Bool.false_or] at hkv
              obtain ⟨b, hb⟩ := is_in_period_ok hkv hour dow
              simp only [hr, if_true, hb, py_bind_ok]
              cases b with
              | false => exact ⟨res, by simpa using hres, hpos⟩
              | true =>
                  refine ⟨some (pyGetD cfg "rate" (PVal.num 0.12)), rfl, ?_⟩
                  intro x hx
                  cases hx
                  exact wfPeriodCfg_rate_pos hkv
      | num q => exact ⟨res, hres, hpos⟩
      | str s => exact ⟨res, hres, hpos⟩
      | time t => exact ⟨res, hres, hpos⟩
      | vlist l => exact ⟨res, hres, hpos⟩
      | vbool b => exact ⟨res, hres, hpos⟩
      | pynone => exact ⟨res, hres, hpos⟩

lemma get_rate_from_structure_ok {rsd : List (String × PVal)}
    (hw : wfStruct rsd = true) (hour dow month : Nat) :
    ∃ v, get_rate_from_structure rsd hour dow month = .ok v ∧ isPosNum v := by
  unfold wfStruct at hw
  rw [Bool.and_eq_true] at hw
  obtain ⟨hw, hleg⟩ := hw
  rw [Bool.and_eq_true] at hw
  obtain ⟨h1, h2⟩ := hw
  obtain ⟨r1, hr1, hp1⟩ := format1Rate_ok hour dow month h1
  unfold get_rate_from_structure
  rw [hr1]
  simp only [py_bind_ok]
  cases r1 with
  | some v => exact ⟨v, rfl, hp1 v rfl⟩
  | none =>
      obtain ⟨r2, hr2, hp2⟩ := format2Rate_ok hour month h2
      rw [hr2]
      simp only [py_bind_ok]
      cases r2 with
      | some v => exact ⟨v, rfl, hp2 v rfl⟩
      | none =>
          obtain ⟨r3, hr3, hp3⟩ := legacyLoop_ok hour dow hleg
          rw [hr3]
          simp only [py_bind_ok]
          cases r3 with
          | some v => exact ⟨v, rfl, hp3 v rfl⟩
          | none => exact ⟨PVal.num 0.12, rfl, posNum_012⟩

lemma caisoLoop_ok {cp : List PVal} (hw : wfCaiso cp = true) (t : Ts) :
    ∃ res, caisoLoop t cp = .ok res ∧ isPosOpt res := by
  induction cp with
  | nil => exact ⟨none, rfl, by intro x hx; cases hx⟩
  | cons r rest ih =>
      rw [wfCaiso, List.all_cons, Bool.and_eq_true] at hw
      obtain ⟨hr, hrest⟩ := hw
      obtain ⟨res, hres, hpos⟩ := ih (by simpa [wfCaiso] using hrest)
      match r, hr with
      | PVal.vdict rd, hr =>
          replace hr : (wfTsVal (pyGet rd "timestamp") &&
              wfLmpOpt (pyGet rd "lmp") &&
              wfLmpKwh (pyGet rd "lmp_kwh") (pyGet rd "lmp")) = true := hr
          rw [Bool.and_eq_true, Bool.and_eq_true] at hr
          obtain ⟨⟨hts, hlmp⟩, hkwh⟩ := hr
          simp only [caisoLoop, PVal.asDictE, py_bind_ok]
          cases hg : pyGet rd "timestamp" with
          | none => rw [hg] at hts; cases hts
          | some tv =>
              rw [hg] at hts
              match tv, hts with
              | PVal.time (some t2), _ =>
                  simp only []
                  cases he : truncEq t2 t with
                  | false => exact ⟨res, by simpa [he] using hres, hpos⟩
                  | true =>
                      have hdiv : ∃ d0, pyDiv (pyGetD rd "lmp" (PVal.num 0))
                          (PVal.num 1000) = .ok (PVal.num d0) := by
                        unfold pyGetD
                        cases hl : pyGet rd "lmp" with
                        | none =>
                            exact ⟨0, by norm_num [pyDiv]⟩
                        | some lv =>
                            rw [hl] at hlmp
                            match lv, hlmp with
                            | PVal.num l, _ =>
                                exact ⟨l / 1000, by norm_num [pyDiv]⟩
                      obtain ⟨d0, hd0⟩ := hdiv
                      refine ⟨some (pyGetD rd "lmp_kwh" (PVal.num d0)), ?_, ?_⟩
                      · simp [he, hd0]
                      · intro x hx
                        cases hx
                        cases hk : pyGet rd "lmp_kwh" with
                        | some kv =>
                            rw [hk] at hkwh
                            match kv, hkwh with
                            | PVal.num k, hkwh =>
                                refine ⟨k, by simp [pyGetD, hk], ?_⟩
                                simpa [wfLmpKwh] using hkwh
                        | none =>
                            rw [hk] at hkwh
                            cases hl : pyGet rd "lmp" with
                            | none => rw [hl] at hkwh; cases hkwh
                            | some lv =>
                                rw [hl] at hkwh
                                match lv, hkwh with
                                | PVal.num l, hkwh =>
                                    refine ⟨l / 1000, ?_, ?_⟩
                                    · have : pyDiv (pyGetD rd "lmp" (PVal.num 0))
                                          (PVal.num 1000) = .ok (PVal.num (l / 1000)) := by
                                        simp [pyGetD, hl, pyDiv]
                                      rw [this] at hd0
                                      cases hd0
                                      simp [pyGetD, hk]
                                    · have hl1000 : (0 : ℚ) < l := by
                                        simpa [wfLmpKwh] using hkwh
                                      positivity

lemma touCost_touRate {pd : PVal} (hpd : wfPricing pd = true) (ts : Option Ts)
    (q : ℚ) :
    ∃ r, touRate ts pd = PVal.num r ∧ 0 < r ∧ touCost q ts pd = .ok (q * r) := by
  cases pd with
  | vdict d =>
      replace hpd : (wfRsVal (pyGetD d "rate_structure" PVal.pynone) &&
          wfRatePos (pyGet d "off_peak_rate")) = true := hpd
      rw [Bool.and_eq_true] at hpd
      obtain ⟨hrs, hop⟩ := hpd
      cases he : d.isEmpty with
      | true =>
          refine ⟨0.12, ?_, by norm_num, ?_⟩ <;>
            simp [touRate, touCost, PVal.truthy, PVal.isDict, he]
      | false =>
          have htr : (!(PVal.vdict d).truthy || !(PVal.vdict d).isDict) = false := by
            simp [PVal.truthy, PVal.isDict, he]
          cases hv : pyGetD d "rate_structure" PVal.pynone with
          | vdict rsd =>
              rw [hv] at hrs
              cases hemp : rsd.isEmpty with
              | true =>
                  obtain ⟨r, hr, hrpos⟩ := wfRatePos_getD hop
                  refine ⟨r, ?_, hrpos, ?_⟩ <;>
                    simp [touRate, touCost, PVal.truthy, PVal.isDict, he, hv,
                      hemp, hr]
              | false =>
                  replace hrs : wfStruct rsd = true := by
                    simpa [wfRsVal, hemp] using hrs
                  cases ts with
                  | none =>
                      refine ⟨0.12, ?_, by norm_num, ?_⟩ <;>
                        simp [touRate, touCost, PVal.truthy, PVal.isDict, he,
                          hv, hemp, structPhase]
                  | some t =>
                      obtain ⟨v, hvk, r, hr, hrpos⟩ :=
                        get_rate_from_structure_ok hrs t.hour t.dow t.month
                      subst hr
                      refine ⟨r, ?_, hrpos, ?_⟩ <;>
                        simp [touRate, touCost, PVal.truthy, PVal.isDict, he,
                          hv, hemp, structPhase, hvk]
          | num q0 =>
              obtain ⟨r, hr, hrpos⟩ := wfRatePos_getD hop
              refine ⟨r, ?_, hrpos, ?_⟩ <;>
                simp [touRate, touCost, PVal.truthy, PVal.isDict, he, hv, hr]
          | str s =>
              obtain ⟨r, hr, hrpos⟩ := wfRatePos_getD hop
              refine ⟨r, ?_, hrpos, ?_⟩ <;>
                simp [touRate, touCost, PVal.truthy, PVal.isDict, he, hv, hr]
          | time t2 =>
              obtain ⟨r, hr, hrpos⟩ := wfRatePos_getD hop
              refine ⟨r, ?_, hrpos, ?_⟩ <;>
                simp [touRate, touCost, PVal.truthy, PVal.isDict, he, hv, hr]
          | vlist l =>
              obtain ⟨r, hr, hrpos⟩ := wfRatePos_getD hop
              refine ⟨r, ?_, hrpos, ?_⟩ <;>
                simp [touRate, touCost, PVal.truthy, PVal.isDict, he, hv, hr]
          | vbool b =>
              obtain ⟨r, hr, hrpos⟩ := wfRatePos_getD hop
              refine ⟨r, ?_, hrpos, ?_⟩ <;>
                simp [touRate, touCost, PVal.truthy, PVal.isDict, he, hv, hr]
          | pynone =>
              obtain ⟨r, hr, hrpos⟩ := wfRatePos_getD hop
              refine ⟨r, ?_, hrpos, ?_⟩ <;>
                simp [touRate, touCost, PVal.truthy, PVal.isDict, he, hv, hr]
  | num q0 =>
      refine ⟨0.12, ?_, by norm_num, ?_⟩ <;>
        simp [touRate, touCost, PVal.truthy, PVal.isDict]
  | str s =>
      refine ⟨0.12, ?_, by norm_num, ?_⟩ <;>
        simp [touRate, touCost, PVal.truthy, PVal.isDict]
  | time t2 =>
      refine ⟨0.12, ?_, by norm_num, ?_⟩ <;>
        simp [touRate, touCost, PVal.truthy, PVal.isDict]
  | vlist l =>
      refine ⟨0.12, ?_, by norm_num, ?_⟩ <;>
        simp [touRate, touCost, PVal.truthy, PVal.isDict]
  | vbool b =>
      refine ⟨0.12, ?_, by norm_num, ?_⟩ <;>
        simp [touRate, touCost, PVal.truthy, PVal.isDict]
  | pynone =>
      refine ⟨0.12, ?_, by norm_num, ?_⟩ <;>
        simp [touRate, touCost, PVal.truthy, PVal.isDict]

/-- Main resolver bridge: on well-formed pricing and CAISO data the resolver
returns a positive numeric rate and the cost estimator returns exactly
`consumption × rate` without raising. -/
lemma rate_cost_eq {pd : PVal} {cp : List PVal} (hpd : wfPricing pd = true)
    (hcp : wfCaiso cp = true) (ts : Option Ts) (q : ℚ) :
    ∃ r, get_rate_at_time ts pd cp = PVal.num r ∧ 0 < r ∧
      calculate_electricity_cost q ts pd cp = .ok (q * r) := by
  obtain ⟨r0, hr0, hrpos0, hc0⟩ := touCost_touRate hpd ts q
  cases hcE : cp.isEmpty with
  | true =>
      refine ⟨r0, ?_, hrpos0, ?_⟩ <;>
        simp [get_rate_at_time, calculate_electricity_cost, hcE, hr0, hc0]
  | false =>
      cases ts with
      | none =>
          refine ⟨r0, ?_, hrpos0, ?_⟩ <;>
            simp [get_rate_at_time, calculate_electricity_cost, hcE,
              caisoPhase, hr0, hc0]
      | some t =>
          obtain ⟨res, hres, hpos⟩ := caisoLoop_ok hcp t
          cases res with
          | none =>
              refine ⟨r0, ?_, hrpos0, ?_⟩ <;>
                simp [get_rate_at_time, calculate_electricity_cost, hcE,
                  caisoPhase, hres, hr0, hc0]
          | some v =>
              obtain ⟨r, hv, hrpos⟩ := hpos v rfl
              subst hv
              refine ⟨r, ?_, hrpos, ?_⟩ <;>
                simp [get_rate_at_time, calculate_electricity_cost, hcE,
                  caisoPhase, hres]

/-- C4 counterexample: with `off_peak_rate = 0` present (and no usable rate
structure), `get_rate_at_time` returns the number 0, which is not positive —
so "always returns a finite positive number" fails on malformed profiles. -/
theorem c4_counterexample :
    get_rate_at_time none
      (PVal.vdict [("rate_structure", PVal.pynone),
                   ("off_peak_rate", PVal.num 0)]) [] = PVal.num 0 ∧
    (∀ q : ℚ, get_rate_at_time none
      (PVal.vdict [("rate_structure", PVal.pynone),
                   ("off_peak_rate", PVal.num 0)]) [] = PVal.num q → q ≤ 0) := by
  constructor
  · rfl
  · intro q hq
    have : (0 : ℚ) = q := by
      have := hq
      rw [show get_rate_at_time none
          (PVal.vdict [("rate_structure", PVal.pynone),
                       ("off_peak_rate", PVal.num 0)]) [] = PVal.num 0 from rfl]
        at this
      exact PVal.num.inj this
    simp [← this]

/-- C4 (amended): `get_rate_at_time` never raises — it is a total function of
its inputs, every internal exception being caught — and it returns a value
drawn from the realtime price, a structure rate, `off_peak_rate`, or the
0.12 constant; on well-formed pricing data and realtime records (positive
numeric rate fields, as the spec's data model requires) the result is a
positive number.  An ill-typed or non-positive rate field is returned
as-is, so positivity does not hold for arbitrary malformed input. -/
theorem c4_rate_resolution_total_and_positive (ts : Option Ts) (pd : PVal)
    (cp : List PVal) (hpd : wfPricing pd = true) (hcp : wfCaiso cp = true) :
    ∃ q : ℚ, get_rate_at_time ts pd cp = PVal.num q ∧ 0 < q := by
  obtain ⟨r, hr, hrpos, _⟩ := rate_cost_eq hpd hcp ts 1
  exact ⟨r, hr, hrpos⟩

/-- C4 witness: the amended theorem applied to a concrete profile. -/
theorem c4_rate_resolution_witness :
    wfPricing (PVal.vdict [("off_peak_rate", PVal.num 0.1)]) = true ∧
    wfCaiso [] = true ∧
    ∃ q : ℚ, get_rate_at_time none
      (PVal.vdict [("off_peak_rate", PVal.num 0.1)]) [] = PVal.num q ∧ 0 < q := by
  have hpd : wfPricing (PVal.vdict [("off_peak_rate", PVal.num 0.1)]) = true := by
    have e1 : pyGetD [("off_peak_rate", PVal.num 0.1)] "rate_structure"
        PVal.pynone = PVal.pynone := rfl
    have e2 : pyGet [("off_peak_rate", PVal.num 0.1)] "off_peak_rate"
        = some (PVal.num 0.1) := rfl
    rw [wfPricing, e1, e2]
    norm_num [wfRsVal, wfRatePos]
  refine ⟨hpd, rfl, ?_⟩
  exact c4_rate_resolution_total_and_positive none
    (PVal.vdict [("off_peak_rate", PVal.num 0.1)]) [] hpd rfl

/-- C3 (amended): `off_peak_rate` is consulted only when `rate_structure` is
absent, falsy, or not a dictionary; when `rate_structure` is a non-empty
dictionary in which no variant matches, the resolver's final fallback is the
constant 0.12 and `off_peak_rate` is ignored (the result depends on the
structure alone, via `structPhase`). -/
theorem c3_fallback_behaviour :
    (∀ (ts : Option Ts) (d : List (String × PVal)),
      (!(pyGetD d "rate_structure" PVal.pynone).truthy
        || !(pyGetD d "rate_structure" PVal.pynone).isDict) = true →
      get_rate_at_time ts (PVal.vdict d) []
        = pyGetD d "off_peak_rate" (PVal.num 0.12)) ∧
    (∀ (ts : Option Ts) (d rsd : List (String × PVal)),
      pyGetD d "rate_structure" PVal.pynone = PVal.vdict rsd → rsd ≠ [] →
      get_rate_at_time ts (PVal.vdict d) [] = structPhase ts rsd) := by
  constructor
  · intro ts d h
    show touRate ts (PVal.vdict d) = _
    cases d with
    | nil => rfl
    | cons kv rest =>
        unfold touRate
        rw [if_neg (by simp [PVal.truthy, PVal.isDict])]
        show (if (!(pyGetD (kv :: rest) "rate_structure" PVal.pynone).truthy
            || !(pyGetD (kv :: rest) "rate_structure" PVal.pynone).isDict)
              = true
          then pyGetD (kv :: rest) "off_peak_rate" (PVal.num 0.12)
          else match pyGetD (kv :: rest) "rate_structure" PVal.pynone with
            | PVal.vdict rsd => structPhase ts rsd
            | _ => PVal.num 0.12) = _
        rw [if_pos h]
  · intro ts d rsd hrs hne
    show touRate ts (PVal.vdict d) = _
    have hd : d ≠ [] := by
      intro h0
      subst h0
      simp [pyGetD, pyGet] at hrs
    have hemp : rsd.isEmpty = false := by
      cases rsd with
      | nil => exact absurd rfl hne
      | cons a b => rfl
    cases d with
    | nil => exact absurd rfl hd
    | cons kv rest =>
        unfold touRate
        rw [if_neg (by simp [PVal.truthy, PVal.isDict])]
        show (if (!(pyGetD (kv :: rest) "rate_structure" PVal.pynone).truthy
            || !(pyGetD (kv :: rest) "rate_structure" PVal.pynone).isDict)
              = true
          then pyGetD (kv :: rest) "off_peak_rate" (PVal.num 0.12)
          else match pyGetD (kv :: rest) "rate_structure" PVal.pynone with
            | PVal.vdict rsd => structPhase ts rsd
            | _ => PVal.num 0.12) = _
        rw [if_neg (by simp [hrs, PVal.truthy, PVal.isDict, hemp]), hrs]

/-- C3 witness: both amended branches applied at concrete profiles. -/
theorem c3_fallback_witness :
    ((!(pyGetD [("off_peak_rate", PVal.num 3)] "rate_structure"
        PVal.pynone).truthy
      || !(pyGetD [("off_peak_rate", PVal.num 3)] "rate_structure"
        PVal.pynone).isDict) = true ∧
     get_rate_at_time none (PVal.vdict [("off_peak_rate", PVal.num 3)]) []
       = pyGetD [("off_peak_rate", PVal.num 3)] "off_peak_rate"
           (PVal.num 0.12)) ∧
    (pyGetD [("rate_structure", PVal.vdict [("foo", PVal.num 1)])]
        "rate_structure" PVal.pynone = PVal.vdict [("foo", PVal.num 1)] ∧
     get_rate_at_time none
        (PVal.vdict [("rate_structure", PVal.vdict [("foo", PVal.num 1)])]) []
       = structPhase none [("foo", PVal.num 1)]) := by
  refine ⟨⟨rfl, ?_⟩, ⟨rfl, ?_⟩⟩
  · exact c3_fallback_behaviour.1 none _ rfl
  · exact c3_fallback_behaviour.2 none _ _ rfl (by intro h; cases h)

lemma caisoLoop_priceRecs (t : Ts) (rs : List PriceRec) :
    caisoLoop t (rs.map priceRecVal) =
      .ok ((rs.find? (fun r => truncEq r.ts t)).map
        (fun r => PVal.num r.lmp_kwh)) := by
  induction rs with
  | nil => rfl
  | cons r rest ih =>
      have e1 : pyGet [("timestamp", PVal.time (some r.ts)),
          ("lmp_kwh", PVal.num r.lmp_kwh)] "timestamp"
          = some (PVal.time (some r.ts)) := rfl
      have e2 : pyGetD [("timestamp", PVal.time (some r.ts)),
          ("lmp_kwh", PVal.num r.lmp_kwh)] "lmp" (PVal.num 0)
          = PVal.num 0 := rfl
      have e3 : pyGetD [("timestamp", PVal.time (some r.ts)),
          ("lmp_kwh", PVal.num r.lmp_kwh)] "lmp_kwh" (PVal.num (0 / 1000))
          = PVal.num r.lmp_kwh := rfl
      simp only [List.map_cons, caisoLoop, priceRecVal, PVal.asDictE,
        py_bind_ok, e1, e2, List.find?]
      cases he : truncEq r.ts t with
      | true =>
          have hdiv : pyDiv (PVal.num 0) (PVal.num 1000)
              = .ok (PVal.num (0 / 1000)) := by
            show (if ((1000 : ℚ) == 0) = true then (Except.error () : Py PVal)
              else .ok (PVal.num (0 / 1000))) = .ok (PVal.num (0 / 1000))
            rw [if_neg (by norm_num)]
          simp only [he, if_true, hdiv, py_bind_ok, e3]
          rfl
      | false =>
          simp only [he, Bool.false_eq_true, if_false, ih]

/-- C7: with a non-empty list of well-formed realtime price records, if some
record's timestamp truncated to the hour equals the query's, resolution
returns the first such record's price without consulting the tariff profile
(the result is the same for every `pricing_data`); if no record matches,
resolution falls through to the tariff path, agreeing with the resolver run
with no realtime prices at all. -/
theorem c7_realtime_precedence (t : Ts) (rs : List PriceRec) (hne : rs ≠ []) :
    (∀ r, rs.find? (fun r => truncEq r.ts t) = some r →
      ∀ pd, get_rate_at_time (some t) pd (rs.map priceRecVal)
        = PVal.num r.lmp_kwh) ∧
    (rs.find? (fun r => truncEq r.ts t) = none →
      ∀ pd, get_rate_at_time (some t) pd (rs.map priceRecVal)
        = get_rate_at_time (some t) pd []) := by
  have hemp : (rs.map priceRecVal).isEmpty = false := by
    cases rs with
    | nil => exact absurd rfl hne
    | cons a b => rfl
  constructor
  · intro r hr pd
    simp only [get_rate_at_time, hemp, Bool.false_eq_true, if_false,
      caisoPhase, caisoLoop_priceRecs, hr]
    rfl
  · intro hr pd
    simp only [get_rate_at_time, hemp, Bool.false_eq_true, if_false,
      caisoPhase, caisoLoop_priceRecs, hr]
    rfl

/-- C7 witness: a two-record list whose second record matches the query hour
while the first does not; the returned rate is the matching record's price,
for a profile that would otherwise resolve differently. -/
theorem c7_realtime_precedence_witness :
    ([⟨⟨1, 5, 0, 6, 0⟩, 2⟩, ⟨⟨0, 10, 2, 6, 30⟩, 3⟩] : List PriceRec) ≠ [] ∧
    ([⟨⟨1, 5, 0, 6, 0⟩, 2⟩, ⟨⟨0, 10, 2, 6, 30⟩, 3⟩] : List PriceRec).find?
      (fun r => truncEq r.ts ⟨0, 10, 2, 6, 0⟩) = some ⟨⟨0, 10, 2, 6, 30⟩, 3⟩ ∧
    get_rate_at_time (some ⟨0, 10, 2, 6, 0⟩) c3pd
      (([⟨⟨1, 5, 0, 6, 0⟩, 2⟩, ⟨⟨0, 10, 2, 6, 30⟩, 3⟩] : List PriceRec).map
        priceRecVal) = PVal.num 3 := by
  refine ⟨(by intro h; cases h), rfl, ?_⟩
  exact (c7_realtime_precedence ⟨0, 10, 2, 6, 0⟩
    [⟨⟨1, 5, 0, 6, 0⟩, 2⟩, ⟨⟨0, 10, 2, 6, 30⟩, 3⟩]
    (by intro h; cases h)).1 ⟨⟨0, 10, 2, 6, 30⟩, 3⟩ rfl c3pd

/-- C10: in the EV-charging generator a forecast point at hour exactly 6 is
classified overnight (`22 <= hour or hour <= 6`) and not daytime
(`6 < hour < 22`); the two classifiers are disjoint on every point, so on
every series the overnight and daytime slot lists are disjoint and an
hour-6 point feeds the cheapest-overnight-rate search, not the mean daytime
rate. -/
theorem c10_ev_hour6_overnight :
    (∀ p : ConsPoint, ¬(evOvernightPred p = true ∧ evDaytimePred p = true)) ∧
    (∀ p : ConsPoint, p.ts.hour = 6 →
      evOvernightPred p = true ∧ evDaytimePred p = false) ∧
    (∀ (cf : List ConsPoint) (p : ConsPoint),
      p ∈ evOvernightPeriods cf → p ∉ evDaytimePeriods cf) ∧
    (∀ (cf : List ConsPoint) (p : ConsPoint), p ∈ cf.take 24 →
      p.ts.hour = 6 →
      p ∈ evOvernightPeriods cf ∧ p ∉ evDaytimePeriods cf) := by
  have hpred : ∀ p : ConsPoint,
      ¬(evOvernightPred p = true ∧ evDaytimePred p = true) := by
    intro p ⟨h1, h2⟩
    simp only [evOvernightPred, evDaytimePred, Bool.or_eq_true,
      Bool.and_eq_true, decide_eq_true_eq] at h1 h2
    omega
  have hhour6 : ∀ p : ConsPoint, p.ts.hour = 6 →
      evOvernightPred p = true ∧ evDaytimePred p = false := by
    intro p h6
    constructor
    · simp [evOvernightPred, h6]
    · simp [evDaytimePred, h6]
  refine ⟨hpred, hhour6, ?_, ?_⟩
  · intro cf p hover hday
    exact hpred p ⟨(List.mem_filter.mp hover).2, (List.mem_filter.mp hday).2⟩
  · intro cf p hmem h6
    refine ⟨List.mem_filter.mpr ⟨hmem, (hhour6 p h6).1⟩, ?_⟩
    intro hday
    have := (List.mem_filter.mp hday).2
    rw [(hhour6 p h6).2] at this
    cases this

/-- C10 witness: the theorem applied to a concrete hour-6 point. -/
theorem c10_ev_hour6_witness :
    (ConsPoint.mk ⟨0, 6, 0, 1, 0⟩ 1).ts.hour = 6 ∧
    ((ConsPoint.mk ⟨0, 6, 0, 1, 0⟩ 1) ∈
        evOvernightPeriods [ConsPoint.mk ⟨0, 6, 0, 1, 0⟩ 1] ∧
      (ConsPoint.mk ⟨0, 6, 0, 1, 0⟩ 1) ∉
        evDaytimePeriods [ConsPoint.mk ⟨0, 6, 0, 1, 0⟩ 1]) := by
  refine ⟨rfl, ?_⟩
  exact c10_ev_hour6_overnight.2.2.2 [ConsPoint.mk ⟨0, 6, 0, 1, 0⟩ 1]
    (ConsPoint.mk ⟨0, 6, 0, 1, 0⟩ 1) (by simp) rfl

/-- C2 counterexample: with the maximum carbon intensity zero, the
window-scoring loop raises `ZeroDivisionError` — scoring does not complete
and no equal-normalization guard exists. -/
theorem c2_counterexample :
    generate_load_shift_recommendation c2cf c2cb PVal.pynone [] = .error () := by
  have h1 : scoresLoop c2cf c2cb c2cf = .error () := by
    have hq : qdiv (5 : ℚ) 5 = .ok 1 := by
      unfold qdiv
      rw [if_neg (by norm_num)]
      norm_num
    have hq0 : qdiv (0 : ℚ) 0 = .error () := by
      simp [qdiv]
    simp only [c2cf, c2cb, scoresLoop, pyMax, List.map, List.find?,
      List.foldl, py_bind_ok]
    norm_num [hq, hq0]
  unfold generate_load_shift_recommendation
  rw [h1]
  rfl

/-- C2 (amended): if the maximum of the raw predicted-consumption values
or the maximum of the raw carbon-intensity list is zero (each maximum is
taken over its input list itself, exactly as the code's `max(...)` calls
are — the carbon maximum is not taken over the joined/default-40 values),
the normalization in LoadShift's join-and-score loop raises a
division-by-zero error: scoring does not complete and the generator
propagates the exception (which the orchestrator then treats as a null
result).  There is no treat-as-equal guard. -/
theorem c2_zero_max_raises (cf : List ConsPoint) (cb : List CarbonPoint)
    (pd : PVal) (cp : List PVal) (hne : cf ≠ [])
    (hzero : pyMax (cf.map (fun x => x.predicted_value)) = .ok 0 ∨
      pyMax (cb.map (fun x => x.carbon_intensity)) = .ok 0) :
    generate_load_shift_recommendation cf cb pd cp = .error () := by
  have hloop : scoresLoop cf cb cf = .error () := by
    match cf, hne with
    | c :: rest, _ =>
        show (do
          let carbon_intensity :=
            ((cb.find? (fun x => x.ts == c.ts)).map
              (fun x => x.carbon_intensity)).getD 40
          let maxCons ← pyMax ((c :: rest).map (fun x => x.predicted_value))
          let cons_norm ← qdiv c.predicted_value maxCons
          let maxCarb ← pyMax (cb.map (fun x => x.carbon_intensity))
          let carbon_norm ← qdiv carbon_intensity maxCarb
          let score := cons_norm * 0.3 + carbon_norm * 0.7
          let tail ← scoresLoop (c :: rest) cb rest
          return ⟨c.ts, score, carbon_intensity, c.predicted_value⟩ :: tail)
          = (.error () : Py (List ScorePoint))
        rcases hzero with hz | hz
        · rw [hz]
          simp [qdiv]
        · obtain ⟨m, hm⟩ : ∃ m, pyMax ((c :: rest).map
              (fun x => x.predicted_value)) = .ok m := ⟨_, rfl⟩
          rw [hm]
          simp only [py_bind_ok]
          by_cases hm0 : m = 0
          · subst hm0
            simp [qdiv]
          · rw [show qdiv c.predicted_value m
                = .ok (c.predicted_value / m) from by simp [qdiv, hm0]]
            rw [hz]
            simp [qdiv]
  unfold generate_load_shift_recommendation
  rw [hloop]
  rfl

/-- C2 witness: the amended theorem applied at a concrete input with zero
consumption maximum. -/
theorem c2_zero_max_witness :
    ([⟨⟨0, 2, 0, 6, 0⟩, (0 : ℚ)⟩] : List ConsPoint) ≠ [] ∧
    pyMax (([⟨⟨0, 2, 0, 6, 0⟩, (0 : ℚ)⟩] : List ConsPoint).map
      (fun x => x.predicted_value)) = .ok 0 ∧
    generate_load_shift_recommendation [⟨⟨0, 2, 0, 6, 0⟩, (0 : ℚ)⟩] []
      PVal.pynone [] = .error () := by
  refine ⟨(by intro h; cases h), rfl, ?_⟩
  exact c2_zero_max_raises [⟨⟨0, 2, 0, 6, 0⟩, (0 : ℚ)⟩] [] PVal.pynone []
    (by intro h; cases h) (Or.inl rfl)

lemma mapM_ok {α β : Type} (f : α → Py β) (g : α → β) :
    ∀ l : List α, (∀ x ∈ l, f x = .ok (g x)) → l.mapM f = .ok (l.map g) := by
  intro l
  induction l with
  | nil => intro _; rfl
  | cons x xs ih =>
      intro h
      rw [List.mapM_cons, h x (List.mem_cons_self x xs),
        ih (fun y hy => h y (List.mem_cons_of_mem x hy))]
      rfl

lemma exists_pyMin {l : List ℚ} (h : l ≠ []) : ∃ m, pyMin l = .ok m := by
  match l, h with
  | x :: xs, _ => exact ⟨_, rfl⟩

lemma percentileIdx_lt {n : ℕ} (hn : 1 ≤ n) : percentileIdx n < n := by
  have hle : percentilePos n ≤ ((n : ℚ) - 1) := by
    unfold percentilePos
    have h1 : (1 : ℚ) ≤ (n : ℚ) := by exact_mod_cast hn
    linarith
  have hcast : ((n : ℚ) - 1) = (((n : ℤ) - 1 : ℤ) : ℚ) := by push_cast; ring
  have hfl : ⌊percentilePos n⌋ ≤ (n : ℤ) - 1 := by
    calc ⌊percentilePos n⌋ ≤ ⌊((n : ℚ) - 1)⌋ := Int.floor_le_floor hle
    _ = (n : ℤ) - 1 := by rw [hcast, Int.floor_intCast]
  unfold percentileIdx
  omega

lemma percentileInterp_const {v : ℚ} {s : List ℚ} {n : ℕ}
    (hlen : s.length = n) (hn : 1 ≤ n) (hall : ∀ x ∈ s, x = v) :
    percentileInterp s n = v := by
  have hgetD : ∀ j, j < n → s.getD j 0 = v := by
    intro j hj
    have hj' : j < s.length := by omega
    rw [List.getD_eq_getElem s 0 hj']
    exact hall _ (List.getElem_mem hj')
  have hi := percentileIdx_lt hn
  unfold percentileInterp
  show (if percentileIdx n + 1 < n
    then s.getD (percentileIdx n) 0 +
      (percentilePos n - (percentileIdx n : ℚ)) *
        (s.getD (percentileIdx n + 1) 0 - s.getD (percentileIdx n) 0)
    else s.getD (percentileIdx n) 0) = v
  split
  · rename_i hi1
    rw [hgetD _ hi, hgetD _ hi1]
    ring
  · exact hgetD _ hi

lemma npPercentile75_const {v : ℚ} {l : List ℚ} (hne : l ≠ [])
    (hall : ∀ x ∈ l, x = v) : npPercentile75 l = .ok v := by
  match l, hne with
  | x :: xs, _ =>
      unfold npPercentile75
      have hperm := List.mergeSort_perm (x :: xs) (fun a b => decide (a ≤ b))
      rw [percentileInterp_const hperm.length_eq (by simp)
        (fun y hy => hall y (hperm.mem_iff.mp hy))]

lemma rateQ_spec {pd : PVal} {cp : List PVal} (hpd : wfPricing pd = true)
    (hcp : wfCaiso cp = true) (ts : Option Ts) :
    get_rate_at_time ts pd cp = PVal.num (rateQ ts pd cp) ∧
    0 < rateQ ts pd cp ∧
    ∀ q, calculate_electricity_cost q ts pd cp = .ok (q * rateQ ts pd cp) := by
  obtain ⟨r, hr, hrpos, _⟩ := rate_cost_eq hpd hcp ts 1
  have hrq : rateQ ts pd cp = r := by
    unfold rateQ
    rw [hr]
  refine ⟨by rw [hr, hrq], by rw [hrq]; exact hrpos, ?_⟩
  intro q
  obtain ⟨r2, hr2, _, hc2⟩ := rate_cost_eq hpd hcp ts q
  have : r2 = r := by
    rw [hr] at hr2
    exact (PVal.num.inj hr2).symm
  rw [hc2, this, hrq]

/-- C9: on a non-empty consumption series whose predicted values are all
equal (and a well-formed tariff), the 75th percentile equals the common
value, the `>=`-selected peak set is the whole series, and PeakAvoidance
still returns a recommendation (not `None`). -/
theorem c9_peak_avoidance_all_equal (cf : List ConsPoint) (v : ℚ) (pd : PVal)
    (cp : List PVal) (hne : cf ≠ [])
    (hall : ∀ p ∈ cf, p.predicted_value = v)
    (hpd : wfPricing pd = true) (hcp : wfCaiso cp = true) :
    npPercentile75 (cf.map (fun f => f.predicted_value)) = .ok v ∧
    cf.filter (fun f => decide (f.predicted_value ≥ v)) = cf ∧
    ∃ r, generate_peak_avoidance_recommendation cf pd cp = .ok (some r) := by
  have hperc : npPercentile75 (cf.map (fun f => f.predicted_value)) = .ok v := by
    refine npPercentile75_const ?_ ?_
    · intro h
      exact hne (List.map_eq_nil_iff.mp h)
    · intro x hx
      obtain ⟨p, hp, hpx⟩ := List.mem_map.mp hx
      rw [← hpx]
      exact hall p hp
  have hfilter : cf.filter (fun f => decide (f.predicted_value ≥ v)) = cf := by
    rw [List.filter_eq_self]
    intro p hp
    rw [hall p hp]
    simp
  refine ⟨hperc, hfilter, ?_⟩
  obtain ⟨c, rest, rfl⟩ : ∃ c rest, cf = c :: rest := by
    cases cf with
    | nil => exact absurd rfl hne
    | cons c rest => exact ⟨c, rest, rfl⟩
  have hcosts : (c :: rest).mapM (fun p => calculate_electricity_cost
      (npMean ((c :: rest).map (fun p => p.predicted_value)) * 0.20)
      (some p.ts) pd cp)
      = .ok ((c :: rest).map (fun p =>
          npMean ((c :: rest).map (fun p => p.predicted_value)) * 0.20
            * rateQ (some p.ts) pd cp)) := by
    refine mapM_ok _ _ _ ?_
    intro p _
    exact (rateQ_spec hpd hcp (some p.ts)).2.2 _
  have hrates : ((c :: rest).map
      (fun f => get_rate_at_time (some f.ts) pd cp)).mapM (fun v =>
        match v with
        | PVal.num q => Except.ok q
        | _ => (Except.error () : Py ℚ))
      = .ok (((c :: rest).map
          (fun f => get_rate_at_time (some f.ts) pd cp)).map (fun v =>
            match v with
            | PVal.num q => q
            | _ => 0)) := by
    refine mapM_ok _ _ _ ?_
    intro x hx
    obtain ⟨p, _, hpx⟩ := List.mem_map.mp hx
    rw [← hpx, (rateQ_spec hpd hcp (some p.ts)).1]
  have hminr : ∃ m, pyMinRates ((c :: rest).map
      (fun f => get_rate_at_time (some f.ts) pd cp)) = .ok m := by
    unfold pyMinRates
    rw [hrates]
    simp only [py_bind_ok]
    exact exists_pyMin (by simp)
  obtain ⟨m, hm⟩ := hminr
  have hie : ((c :: rest).map
      (fun f => get_rate_at_time (some f.ts) pd cp)).isEmpty = false := rfl
  simp only [generate_peak_avoidance_recommendation, hperc, py_bind_ok,
    hfilter, hcosts, hie, Bool.false_eq_true, if_false, hm]
  exact ⟨_, rfl⟩

/-- C9 witness: a two-point all-equal series with a trivially well-formed
(absent) tariff profile still yields a recommendation. -/
theorem c9_peak_avoidance_witness :
    (([⟨⟨0, 1, 0, 6, 0⟩, 2⟩, ⟨⟨0, 2, 0, 6, 0⟩, 2⟩] : List ConsPoint) ≠ []) ∧
    (∀ p ∈ ([⟨⟨0, 1, 0, 6, 0⟩, 2⟩, ⟨⟨0, 2, 0, 6, 0⟩, 2⟩] : List ConsPoint),
      p.predicted_value = 2) ∧
    ∃ r, generate_peak_avoidance_recommendation
      [⟨⟨0, 1, 0, 6, 0⟩, 2⟩, ⟨⟨0, 2, 0, 6, 0⟩, 2⟩] PVal.pynone []
      = .ok (some r) := by
  have hall : ∀ p ∈ ([⟨⟨0, 1, 0, 6, 0⟩, 2⟩, ⟨⟨0, 2, 0, 6, 0⟩, 2⟩] :
      List ConsPoint), p.predicted_value = 2 := by
    intro p hp
    rcases List.mem_cons.mp hp with rfl | hp2
    · rfl
    · rcases List.mem_cons.mp hp2 with rfl | hp3
      · rfl
      · cases hp3
  refine ⟨(by intro h; cases h), hall, ?_⟩
  exact (c9_peak_avoidance_all_equal _ 2 PVal.pynone []
    (by intro h; cases h) hall rfl rfl).2.2

lemma rankRecs_perm (l : List Rec) : (rankRecs l).Perm l :=
  List.mergeSort_perm l _

lemma rankRecs_sorted (l : List Rec) :
    List.Pairwise (fun a b : Rec => b.cost_savings ≤ a.cost_savings)
      (rankRecs l) := by
  have h := @List.sorted_mergeSort Rec
    (fun a b : Rec => decide (b.cost_savings ≤ a.cost_savings))
    (fun a b c hab hbc => by
      simp only [decide_eq_true_eq] at *
      exact le_trans hbc hab)
    (fun a b => by
      simp only [Bool.or_eq_true, decide_eq_true_eq]
      exact le_total b.cost_savings a.cost_savings)
    l
  exact h.imp (fun hab => by simpa using hab)

lemma collectRecs_set_null (i : ℕ) :
    ∀ (k : ℕ) (os : List GenOutcome), os.get? i = some GenOutcome.raised →
      collectRecs k os = collectRecs k (os.set i (GenOutcome.produced none)) := by
  induction i with
  | zero =>
      intro k os h
      match os, h with
      | GenOutcome.raised :: rest, _ => rfl
  | succ n ih =>
      intro k os h
      match os with
      | o :: rest =>
          have : rest.get? n = some GenOutcome.raised := h
          simp only [collectRecs, List.set]
          rw [ih (k + 1) rest this]

lemma collectRecs_mem (r : Rec) :
    ∀ (j k : ℕ) (os : List GenOutcome),
      os.get? j = some (GenOutcome.produced (some r)) →
      explainSlot (k + j) r ∈ collectRecs k os := by
  intro j
  induction j with
  | zero =>
      intro k os h
      match os, h with
      | GenOutcome.produced (some r') :: rest, h =>
          have : r' = r := by
            have h2 : some (GenOutcome.produced (some r'))
                = some (GenOutcome.produced (some r)) := h
            cases h2
            rfl
          subst this
          simp [collectRecs]
  | succ n ih =>
      intro k os h
      match os with
      | o :: rest =>
          have h2 : rest.get? n = some (GenOutcome.produced (some r)) := h
          have h3 := ih (k + 1) rest h2
          simp only [collectRecs]
          rw [show k + (n + 1) = (k + 1) + n by omega]
          exact List.mem_append_right _ h3

/-- C5 (amended): an exception in one generator slot is equivalent to that
slot producing `None`: the remaining slots are unaffected and every other
produced recommendation still enters the collected, ranked list.  The
computation never aborts (the orchestrator is a total function).  A
produced recommendation may still be absent from the final output, because
the output keeps only the top five by `cost_savings` (see the C5
counterexample). -/
theorem c5_failure_isolation (os : List GenOutcome) (i : ℕ)
    (hi : os.get? i = some GenOutcome.raised) :
    generate_recommendations os
      = generate_recommendations (os.set i (GenOutcome.produced none)) ∧
    ∀ (j : ℕ) (r : Rec), os.get? j = some (GenOutcome.produced (some r)) →
      explainSlot j r ∈ collectRecs 0 os := by
  constructor
  · unfold generate_recommendations rankRecs
    rw [collectRecs_set_null i 0 os hi]
  · intro j r hj
    have := collectRecs_mem r j 0 os hj
    rwa [Nat.zero_add] at this

/-- C5 counterexample: one generator raises, the slot-7 generator still runs
and produces a non-null recommendation (savings 1), yet that recommendation
does not appear in the output — the top-5 truncation drops it.  This
falsifies "all remaining generators' non-null results appear in the
output". -/
theorem c5_counterexample :
    c5os.get? 0 = some GenOutcome.raised ∧
    c5os.get? 6 = some (GenOutcome.produced (some (cRec 1))) ∧
    explainSlot 6 (cRec 1) = cRec 1 ∧
    cRec 1 ∉ generate_recommendations c5os := by
  refine ⟨rfl, rfl, rfl, ?_⟩
  have hcollect : collectRecs 0 c5os
      = [add_explanation (cRec 6) 0.15, add_explanation (cRec 5) 0.10,
         cRec 4, cRec 3, cRec 2, cRec 1] := rfl
  have hout : generate_recommendations c5os
      = [add_explanation (cRec 6) 0.15, add_explanation (cRec 5) 0.10,
         cRec 4, cRec 3, cRec 2] := by
    unfold generate_recommendations rankRecs
    rw [hcollect, List.mergeSort_of_sorted (by decide)]
    rfl
  rw [hout]
  intro hmem
  have hs : ∀ x ∈ [add_explanation (cRec 6) 0.15,
      add_explanation (cRec 5) 0.10, cRec 4, cRec 3, cRec 2],
      (2 : ℚ) ≤ x.cost_savings := by decide
  have := hs _ hmem
  simp only [cRec] at this
  norm_num at this

/-- C5 witness: the amended isolation statement at the concrete outcome
vector of the counterexample (slot 0 raises). -/
theorem c5_failure_isolation_witness :
    c5os.get? 0 = some GenOutcome.raised ∧
    (generate_recommendations c5os
      = generate_recommendations (c5os.set 0 (GenOutcome.produced none)) ∧
     ∀ (j : ℕ) (r : Rec),
       c5os.get? j = some (GenOutcome.produced (some r)) →
       explainSlot j r ∈ collectRecs 0 c5os) :=
  ⟨rfl, c5_failure_isolation c5os 0 rfl⟩

/-- C6: the orchestrator's output is sorted by `cost_savings` descending and
has length at most 5 for every outcome vector; and when seven candidates
with pairwise distinct savings are produced, the output is exactly the five
highest, in strictly descending order: length 5, strictly sorted, drawn
from the candidates, and every excluded candidate has smaller savings than
every output entry. -/
theorem c6_ranking_truncation :
    (∀ os : List GenOutcome,
      List.Pairwise (fun a b : Rec => b.cost_savings ≤ a.cost_savings)
        (generate_recommendations os) ∧
      (generate_recommendations os).length ≤ 5) ∧
    (∀ r1 r2 r3 r4 r5 r6 r7 : Rec,
      (collectRecs 0 (sevenOutcomes r1 r2 r3 r4 r5 r6 r7)).Pairwise
        (fun a b : Rec => a.cost_savings ≠ b.cost_savings) →
      (generate_recommendations (sevenOutcomes r1 r2 r3 r4 r5 r6 r7)).length
          = 5 ∧
      List.Pairwise (fun a b : Rec => b.cost_savings < a.cost_savings)
        (generate_recommendations (sevenOutcomes r1 r2 r3 r4 r5 r6 r7)) ∧
      (generate_recommendations (sevenOutcomes r1 r2 r3 r4 r5 r6 r7)).Subperm
        (collectRecs 0 (sevenOutcomes r1 r2 r3 r4 r5 r6 r7)) ∧
      ∀ x ∈ collectRecs 0 (sevenOutcomes r1 r2 r3 r4 r5 r6 r7),
        x ∉ generate_recommendations (sevenOutcomes r1 r2 r3 r4 r5 r6 r7) →
        ∀ y ∈ generate_recommendations (sevenOutcomes r1 r2 r3 r4 r5 r6 r7),
          x.cost_savings < y.cost_savings) := by
  have hgen : ∀ os : List GenOutcome, generate_recommendations os
      = (rankRecs (collectRecs 0 os)).take 5 := fun _ => rfl
  constructor
  · intro os
    constructor
    · rw [hgen]
      exact (rankRecs_sorted (collectRecs 0 os)).sublist
        (List.take_sublist 5 _)
    · rw [hgen]
      simp [List.length_take]
  · intro r1 r2 r3 r4 r5 r6 r7 hdist
    set l := collectRecs 0 (sevenOutcomes r1 r2 r3 r4 r5 r6 r7) with hl
    have hlen7 : l.length = 7 := by
      rw [hl]
      rfl
    have hperm : (rankRecs l).Perm l := rankRecs_perm l
    have hlenrank : (rankRecs l).length = 7 := hperm.length_eq.trans hlen7
    have hsorted := rankRecs_sorted l
    have hne : (rankRecs l).Pairwise
        (fun a b : Rec => a.cost_savings ≠ b.cost_savings) :=
      (hperm.pairwise_iff (fun h => h.symm)).mpr hdist
    have hstrict : (rankRecs l).Pairwise
        (fun a b : Rec => b.cost_savings < a.cost_savings) := by
      have := hsorted.and hne
      exact this.imp (fun h => lt_of_le_of_ne h.1 (fun e => h.2 e.symm))
    have hsplit := List.take_append_drop 5 (rankRecs l)
    refine ⟨?_, ?_, ?_, ?_⟩
    · rw [hgen]
      simp [List.length_take, hlenrank]
    · rw [hgen]
      exact hstrict.sublist (List.take_sublist 5 _)
    · rw [hgen]
      exact ((List.take_sublist 5 _).subperm).trans hperm.subperm
    · intro x hx hnx y hy
      rw [hgen] at hnx hy
      have hxrank : x ∈ rankRecs l := hperm.mem_iff.mpr hx
      have hxdrop : x ∈ (rankRecs l).drop 5 := by
        rcases (List.mem_append.mp (by rw [hsplit]; exact hxrank)) with h | h
        · exact absurd h hnx
        · exact h
      have hpair : ((rankRecs l).take 5 ++ (rankRecs l).drop 5).Pairwise
          (fun a b : Rec => b.cost_savings < a.cost_savings) := by
        rw [hsplit]
        exact hstrict
      exact ((List.pairwise_append.mp hpair).2.2 y hy x hxdrop)

/-- C6 witness: seven concrete candidates with distinct savings produce an
output of length 5. -/
theorem c6_ranking_witness :
    (collectRecs 0 (sevenOutcomes (cRec 7) (cRec 6) (cRec 5) (cRec 4)
      (cRec 3) (cRec 2) (cRec 1))).Pairwise
      (fun a b : Rec => a.cost_savings ≠ b.cost_savings) ∧
    (generate_recommendations (sevenOutcomes (cRec 7) (cRec 6) (cRec 5)
      (cRec 4) (cRec 3) (cRec 2) (cRec 1))).length = 5 := by
  have hd : (collectRecs 0 (sevenOutcomes (cRec 7) (cRec 6) (cRec 5) (cRec 4)
      (cRec 3) (cRec 2) (cRec 1))).Pairwise
      (fun a b : Rec => a.cost_savings ≠ b.cost_savings) := by decide
  exact ⟨hd, (c6_ranking_truncation.2 (cRec 7) (cRec 6) (cRec 5) (cRec 4)
    (cRec 3) (cRec 2) (cRec 1) hd).1⟩

lemma qdiv_ok {a b : ℚ} (hb : b ≠ 0) : qdiv a b = .ok (a / b) := by
  unfold qdiv
  rw [if_neg (by simpa using hb)]

lemma roundHalfEven_intCast (z : ℤ) : roundHalfEven (z : ℚ) = z := by
  unfold roundHalfEven
  rw [Int.floor_intCast]
  norm_num

lemma round2_of_mul_eq {x : ℚ} {z : ℤ} (h : x * 100 = (z : ℚ)) :
    round2 x = (z : ℚ) / 100 := by
  unfold round2
  rw [h, roundHalfEven_intCast]

lemma roundHalfEven_nonneg {q : ℚ} (h : 0 ≤ q) : 0 ≤ roundHalfEven q := by
  unfold roundHalfEven
  have hf : (0 : ℤ) ≤ ⌊q⌋ := Int.floor_nonneg.mpr h
  show (0 : ℤ) ≤
    if q - (⌊q⌋ : ℚ) < 1 / 2 then ⌊q⌋
    else if q - (⌊q⌋ : ℚ) > 1 / 2 then ⌊q⌋ + 1
    else if Even ⌊q⌋ then ⌊q⌋ else ⌊q⌋ + 1
  split
  · exact hf
  · split
    · omega
    · split
      · exact hf
      · omega

lemma round2_nonneg {q : ℚ} (h : 0 ≤ q) : 0 ≤ round2 q := by
  unfold round2
  have h1 := roundHalfEven_nonneg (by positivity : (0 : ℚ) ≤ q * 100)
  have h2 : (0 : ℚ) ≤ (roundHalfEven (q * 100) : ℚ) := by exact_mod_cast h1
  positivity

/-- C1 counterexample: LoadShift surfaces a recommendation (its score picks
the low-consumption 01:00 window, which has above-average carbon and the
expensive rate) whose `cost_savings` is −10 and whose `co2_reduction` is
−0.25 — both negative, contradicting the claimed invariant. -/
theorem c1_counterexample :
    (generate_load_shift_recommendation c1cf c1cb c1pd []).map
      (fun r => (r.cost_savings, r.co2_reduction))
      = .ok (((-1000 : ℤ) : ℚ) / 100, ((-25 : ℤ) : ℚ) / 100) ∧
    (((-1000 : ℤ) : ℚ) / 100 < 0 ∧ ((-25 : ℤ) : ℚ) / 100 < 0) := by
  have hscores : scoresLoop c1cf c1cb c1cf
      = .ok [⟨c1t0, c1score0, 60, 1⟩, ⟨c1t1, c1score1, 50, 100⟩] := rfl
  have hbest : pyMinBy (fun s : ScorePoint => s.score)
      [⟨c1t0, c1score0, 60, 1⟩, ⟨c1t1, c1score1, 50, 100⟩]
      = .ok ⟨c1t0, c1score0, 60, 1⟩ := by
    unfold pyMinBy
    simp only [List.foldl]
    rw [if_neg (by norm_num [c1score0, c1score1])]
  have hr0 : calculate_electricity_cost 50 (some c1t0) c1pd []
      = .ok (50 * 0.5) := rfl
  have hr1 : calculate_electricity_cost 50 (some c1t1) c1pd []
      = .ok (50 * 0.1) := rfl
  have havg0 : npMean [c1score0, c1score1] ≠ 0 := by
    norm_num [npMean, c1score0, c1score1]
  have hqd : qdiv (npMean [c1score0, c1score1] - c1score0)
      (npMean [c1score0, c1score1])
      = .ok ((npMean [c1score0, c1score1] - c1score0)
          / npMean [c1score0, c1score1]) := qdiv_ok havg0
  constructor
  · simp only [generate_load_shift_recommendation, hscores, py_bind_ok,
      hbest, List.map_cons, List.map_nil, hqd, List.mapM_cons, List.mapM_nil,
      hr0, hr1, pyMax, List.foldl, Except.map, py_pure]
    have hcs : round2 (npMean [50 * 0.5, 50 * 0.1] - 50 * 0.5)
        = ((-1000 : ℤ) : ℚ) / 100 :=
      round2_of_mul_eq (by norm_num [npMean])
    have hco : round2 (50 * (npMean [(60 : ℚ), 50] - 60) / 1000)
        = ((-25 : ℤ) : ℚ) / 100 :=
      round2_of_mul_eq (by norm_num [npMean])
    rw [hcs, hco]
  · constructor <;> norm_num

lemma py_bind_eq_ok {α β : Type} {x : Py α} {f : α → Py β} {b : β}
    (h : x >>= f = .ok b) : ∃ a, x = .ok a ∧ f a = .ok b := by
  cases x with
  | ok a => exact ⟨a, rfl, h⟩
  | error e => cases h

lemma foldl_min_le (xs : List ℚ) :
    ∀ x y : ℚ, y ∈ x :: xs → xs.foldl min x ≤ y := by
  induction xs with
  | nil =>
      intro x y hy
      rcases List.mem_cons.mp hy with rfl | h
      · simp
      · cases h
  | cons z zs ih =>
      intro x y hy
      have hfold : (z :: zs).foldl min x = zs.foldl min (min x z) := rfl
      rcases List.mem_cons.mp hy with rfl | hy2
      · rw [hfold]
        calc zs.foldl min (min y z) ≤ min y z :=
              ih (min y z) (min y z) (List.mem_cons_self _ _)
        _ ≤ y := min_le_left _ _
      · rcases List.mem_cons.mp hy2 with rfl | hy3
        · rw [hfold]
          calc zs.foldl min (min x y) ≤ min x y :=
                ih (min x y) (min x y) (List.mem_cons_self _ _)
          _ ≤ y := min_le_right _ _
        · rw [hfold]
          exact ih (min x z) y (List.mem_cons_of_mem _ hy3)

lemma pyMin_le {l : List ℚ} {m : ℚ} (h : pyMin l = .ok m) :
    ∀ x ∈ l, m ≤ x := by
  match l, h with
  | x :: xs, h =>
      have hm : xs.foldl min x = m :=
        Except.ok.inj (show (Except.ok (xs.foldl min x) : Py ℚ) = .ok m from h)
      intro y hy
      rw [← hm]
      exact foldl_min_le xs x y hy

lemma npMean_nonneg {l : List ℚ} (h : ∀ x ∈ l, 0 ≤ x) : 0 ≤ npMean l := by
  unfold npMean
  have hs : 0 ≤ l.sum := List.sum_nonneg h
  positivity

lemma sum_length_le_sum {c : ℚ} {l : List ℚ} (h : ∀ x ∈ l, c ≤ x) :
    c * l.length ≤ l.sum := by
  induction l with
  | nil => simp
  | cons x xs ih =>
      have hx := h x (List.mem_cons_self _ _)
      have hxs := ih (fun y hy => h y (List.mem_cons_of_mem _ hy))
      simp only [List.sum_cons, List.length_cons]
      push_cast
      linarith

lemma length_mul_lt_sum {c : ℚ} {l : List ℚ} (hne : l ≠ [])
    (h : ∀ x ∈ l, c < x) : c * l.length < l.sum := by
  match l, hne with
  | x :: xs, _ =>
      have hx := h x (List.mem_cons_self _ _)
      have hxs : c * xs.length ≤ xs.sum :=
        sum_length_le_sum (fun y hy => le_of_lt (h y (List.mem_cons_of_mem _ hy)))
      simp only [List.sum_cons, List.length_cons]
      push_cast
      linarith

lemma npMean_gt {c : ℚ} {l : List ℚ} (hne : l ≠ []) (h : ∀ x ∈ l, c < x) :
    c < npMean l := by
  unfold npMean
  have hlen : (0 : ℚ) < l.length := by
    have : 0 < l.length := List.length_pos.mpr hne
    exact_mod_cast this
  rw [lt_div_iff₀ hlen]
  exact length_mul_lt_sum hne h

@[simp] lemma add_explanation_cost_savings (r : Rec) (u : ℚ) :
    (add_explanation r u).cost_savings = r.cost_savings := rfl

@[simp] lemma add_explanation_co2 (r : Rec) (u : ℚ) :
    (add_explanation r u).co2_reduction = r.co2_reduction := rfl

lemma ev_nonneg {cf : List ConsPoint} {pd : PVal} {cp : List PVal} {n : ℕ}
    {r : Rec}
    (h : generate_ev_charging_recommendation cf pd cp n = .ok (some r)) :
    0 ≤ r.cost_savings ∧ 0 ≤ r.co2_reduction := by
  unfold generate_ev_charging_recommendation at h
  simp only [py_pure, py_bind_ok] at h
  split at h
  · simp at h
  · split at h
    · simp at h
    · obtain ⟨oq, hoq, h⟩ := py_bind_eq_ok h
      split at h
      · simp at h
      · split at h
        · split at h
          · simp at h
          · rename_i hsav
            obtain ⟨pct, hpct, h⟩ := py_bind_eq_ok h
            simp only [py_pure, Except.ok.injEq, Option.some.injEq] at h
            subst h
            refine ⟨?_, le_refl _⟩
            rw [add_explanation_cost_savings]
            exact round2_nonneg (by linarith [not_lt.mp hsav])
        · obtain ⟨dayRates, hday, h⟩ := py_bind_eq_ok h
          split at h
          · simp at h
          · rename_i hsav
            obtain ⟨pct, hpct, h⟩ := py_bind_eq_ok h
            simp only [py_pure, Except.ok.injEq, Option.some.injEq] at h
            subst h
            refine ⟨?_, le_refl _⟩
            rw [add_explanation_cost_savings]
            exact round2_nonneg (by linarith [not_lt.mp hsav])

lemma hvac_nonneg {cf : List ConsPoint} {wf : List WeatherPoint} {pd : PVal}
    {cp : List PVal} {r : Rec}
    (hv : ∀ c ∈ cf, 0 ≤ c.predicted_value)
    (h : generate_hvac_precool_recommendation cf wf pd cp = .ok (some r)) :
    0 ≤ r.cost_savings ∧ 0 ≤ r.co2_reduction := by
  have hload : 0 ≤ npMean ((cf.take 8).map (fun c => c.predicted_value)) := by
    refine npMean_nonneg ?_
    intro x hx
    obtain ⟨c, hc, hcx⟩ := List.mem_map.mp hx
    rw [← hcx]
    exact hv c (List.mem_of_mem_take hc)
  unfold generate_hvac_precool_recommendation at h
  simp only [py_pure, py_bind_ok] at h
  split at h
  · simp at h
  · split at h
    · simp at h
    · obtain ⟨ratesQ, hrq, h⟩ := py_bind_eq_ok h
      split at h
      · obtain ⟨ratio, hratio, h⟩ := py_bind_eq_ok h
        split at h
        · simp at h
        · obtain ⟨normal, hn, h⟩ := py_bind_eq_ok h
          obtain ⟨precool, hp, h⟩ := py_bind_eq_ok h
          split at h
          · simp at h
          · rename_i hsav
            simp only [py_pure, Except.ok.injEq, Option.some.injEq] at h
            subst h
            constructor
            · rw [add_explanation_cost_savings]
              exact round2_nonneg (by linarith [not_le.mp hsav])
            · rw [add_explanation_co2]
              exact round2_nonneg (mul_nonneg (mul_nonneg
                (mul_nonneg hload (by norm_num)) (by norm_num)) (by norm_num))
      · simp at h

lemma efficiency_nonneg {cf : List ConsPoint} {hb : Option ℚ} {now : Ts}
    {r : Rec}
    (hbpos : ∀ b, hb = some b → 0 < b)
    (h : generate_efficiency_alert cf hb now = .ok (some r)) :
    0 ≤ r.cost_savings ∧ 0 ≤ r.co2_reduction := by
  unfold generate_efficiency_alert at h
  simp only [py_pure, py_bind_ok] at h
  split at h
  · simp at h
  · simp at h
  · rename_i head tail baseline
    have hbpos' : 0 < baseline := hbpos baseline rfl
    obtain ⟨ratio, hratio, h⟩ := py_bind_eq_ok h
    rw [qdiv_ok (ne_of_gt hbpos')] at hratio
    replace hratio := Except.ok.inj hratio
    subst hratio
    split at h
    · rename_i hgt
      simp only [py_pure, Except.ok.injEq, Option.some.injEq] at h
      subst h
      have h2 : (0 : ℚ) <
          (npMean ((head :: tail).map (fun c => c.predicted_value)) -
            baseline) / baseline := by
        linarith
      have h3 : (0 : ℚ) <
          npMean ((head :: tail).map (fun c => c.predicted_value)) -
            baseline := by
        rcases div_pos_iff.mp h2 with ⟨h4, _⟩ | ⟨_, h5⟩
        · exact h4
        · linarith
      constructor
      · rw [add_explanation_cost_savings]
        exact round2_nonneg (mul_nonneg (mul_nonneg
          (mul_nonneg h3.le (by norm_num)) (by norm_num)) (by norm_num))
      · rw [add_explanation_co2]
        exact round2_nonneg (mul_nonneg (mul_nonneg
          (mul_nonneg h3.le (by norm_num)) (by norm_num)) (by norm_num))
    · simp at h

lemma weather_nonneg {wf : List WeatherPoint} {cf : List ConsPoint}
    {pd : PVal} {cp : List PVal} {r : Rec}
    (hpd : wfPricing pd = true) (hcp : wfCaiso cp = true)
    (_hcf : cf ≠ [])
    (hv : ∀ c ∈ cf, 0 ≤ c.predicted_value)
    (h : generate_weather_alert wf cf pd cp = .ok (some r)) :
    0 ≤ r.cost_savings ∧ 0 ≤ r.co2_reduction := by
  unfold generate_weather_alert at h
  simp only [py_pure, py_bind_ok] at h
  split at h
  · simp at h
  · split at h
    · split at h
      · simp at h
      · rename_i h0 tail heq
        rw [heq] at h
        obtain ⟨cost, hcost, h⟩ := py_bind_eq_ok h
        obtain ⟨peak, hpeak, h⟩ := py_bind_eq_ok h
        simp only [py_pure, Except.ok.injEq, Option.some.injEq] at h
        subst h
        have htemp : ∀ x ∈ (h0 :: tail).map (fun w => w.temperature),
            (32 : ℚ) < x := by
          intro x hx
          obtain ⟨w, hw, hwx⟩ := List.mem_map.mp hx
          rw [← hwx]
          have hwmem : w ∈ wf.filter (fun w => decide (w.temperature > 32)) := by
            rw [heq]
            exact hw
          have hfact := List.of_mem_filter hwmem
          simpa using hfact
        have havg : (32 : ℚ) <
            npMean ((h0 :: tail).map (fun w => w.temperature)) :=
          npMean_gt (by simp) htemp
        have hbase : 0 ≤ npMean ((cf.take (h0 :: tail).length).map
            (fun c => c.predicted_value)) := by
          refine npMean_nonneg ?_
          intro x hx
          obtain ⟨c, hc, hcx⟩ := List.mem_map.mp hx
          rw [← hcx]
          exact hv c (List.mem_of_mem_take hc)
        have hinc : 0 ≤ npMean ((cf.take (h0 :: tail).length).map
            (fun c => c.predicted_value)) *
            ((npMean ((h0 :: tail).map (fun w => w.temperature)) - 25) * 1.0
              / 100) := by
          refine mul_nonneg hbase (div_nonneg (mul_nonneg ?_ (by norm_num))
            (by norm_num))
          linarith
        obtain ⟨hrate_eq, hrate_pos, hcost_eq⟩ := rateQ_spec hpd hcp (some h0.ts)
        rw [hcost_eq] at hcost
        replace hcost := Except.ok.inj hcost
        have hc0 : 0 ≤ cost := by
          rw [← hcost]
          exact mul_nonneg (mul_nonneg hinc (Nat.cast_nonneg _)) hrate_pos.le
        constructor
        · rw [add_explanation_cost_savings]
          exact round2_nonneg (mul_nonneg hc0 (by norm_num))
        · rw [add_explanation_co2]
          exact round2_nonneg (mul_nonneg (mul_nonneg hinc (by norm_num))
            (by norm_num))
    · simp at h

lemma mapM_mem {α β : Type} {f : α → Py β} :
    ∀ {l : List α} {out : List β}, l.mapM f = .ok out →
      ∀ {x : α} {y : β}, x ∈ l → f x = .ok y → y ∈ out := by
  intro l
  induction l with
  | nil =>
      intro out h x y hx _
      cases hx
  | cons a as ih =>
      intro out h x y hx hfy
      rw [List.mapM_cons] at h
      obtain ⟨b, hb, h⟩ := py_bind_eq_ok h
      obtain ⟨bs, hbs, h⟩ := py_bind_eq_ok h
      simp only [py_pure, Except.ok.injEq] at h
      subst h
      rcases List.mem_cons.mp hx with rfl | hx2
      · rw [hfy] at hb
        injection hb with hyb
        subst hyb
        exact List.mem_cons_self _ _
      · exact List.mem_cons_of_mem _ (ih hbs hx2 hfy)

lemma peak_nonneg {cf : List ConsPoint} {pd : PVal} {cp : List PVal} {r : Rec}
    (hpd : wfPricing pd = true) (hcp : wfCaiso cp = true)
    (hv : ∀ c ∈ cf, 0 ≤ c.predicted_value)
    (h : generate_peak_avoidance_recommendation cf pd cp = .ok (some r)) :
    0 ≤ r.cost_savings ∧ 0 ≤ r.co2_reduction := by
  unfold generate_peak_avoidance_recommendation at h
  simp only [py_pure, py_bind_ok] at h
  obtain ⟨thr, hthr, h⟩ := py_bind_eq_ok h
  split at h
  · simp at h
  · rename_i first tail heq
    obtain ⟨costs, hcosts, h⟩ := py_bind_eq_ok h
    have hred : 0 ≤ npMean
        ((cf.filter (fun f => decide (f.predicted_value ≥ thr))).map
          (fun p => p.predicted_value)) * 0.20 := by
      refine mul_nonneg (npMean_nonneg ?_) (by norm_num)
      intro x hx
      obtain ⟨c, hc, hcx⟩ := List.mem_map.mp hx
      rw [← hcx]
      exact hv c (List.mem_of_mem_filter hc)
    rw [mapM_ok _
      (fun p => npMean
        ((cf.filter (fun f => decide (f.predicted_value ≥ thr))).map
          (fun p => p.predicted_value)) * 0.20 * rateQ (some p.ts) pd cp) _
      (fun p _ => (rateQ_spec hpd hcp (some p.ts)).2.2 _)] at hcosts
    replace hcosts := Except.ok.inj hcosts
    split at h
    · rename_i hie
      exfalso
      cases cf with
      | nil => simp at heq
      | cons c cs => simp at hie
    · obtain ⟨mr, hmr, h⟩ := py_bind_eq_ok h
      simp only [py_pure, Except.ok.injEq, Option.some.injEq] at h
      subst h
      unfold pyMinRates at hmr
      obtain ⟨qs, hqs, hmr⟩ := py_bind_eq_ok hmr
      have hqmem : ∀ p ∈ cf, rateQ (some p.ts) pd cp ∈ qs := by
        intro p hp
        refine mapM_mem hqs (List.mem_map_of_mem _ hp) ?_
        simp only [(rateQ_spec hpd hcp (some p.ts)).1]
      have hbound : ∀ x ∈ (cf.filter
          (fun f => decide (f.predicted_value ≥ thr))).map
          (fun p => npMean
            ((cf.filter (fun f => decide (f.predicted_value ≥ thr))).map
              (fun p => p.predicted_value)) * 0.20 *
            rateQ (some p.ts) pd cp),
          npMean ((cf.filter (fun f => decide (f.predicted_value ≥ thr))).map
            (fun p => p.predicted_value)) * 0.20 * mr ≤ x := by
        intro x hx
        obtain ⟨p, hp, hpx⟩ := List.mem_map.mp hx
        rw [← hpx]
        refine mul_le_mul_of_nonneg_left ?_ hred
        exact pyMin_le hmr _ (hqmem p (List.mem_of_mem_filter hp))
      have hsum := sum_length_le_sum hbound
      rw [List.length_map] at hsum
      rw [← hcosts]
      constructor
      · exact round2_nonneg (by linarith)
      · exact round2_nonneg (mul_nonneg hred (by norm_num))

/-- C1 (amended): under the data-model invariants — well-formed tariff and
realtime data with positive rates, a non-empty consumption forecast with
non-negative values, and a positive historical baseline — every
recommendation surfaced by the PeakAvoidance, WeatherAlert,
EfficiencyAlert, HVACPrecool and EVCharging generators carries
non-negative `cost_savings` and `co2_reduction`.  Two parts of the
original claim do not survive: (1) LoadShift is refuted by
`c1_counterexample` — it picks its window by the blended
consumption/carbon score, so its surfaced `cost_savings` and
`co2_reduction` can both be negative; (2) the non-emptiness invariant
`cf ≠ []` is required because with an empty consumption series and three
or more hot weather points the WeatherAlert path computes
`np.mean([])`, and the source surfaces NaN values (see
`generate_weather_alert`). -/
theorem c1_nonneg_surfaced_recommendations
    (cf : List ConsPoint) (wf : List WeatherPoint) (pd : PVal)
    (cp : List PVal) (hb : Option ℚ) (now : Ts) (n : ℕ)
    (hpd : wfPricing pd = true) (hcp : wfCaiso cp = true)
    (hcf : cf ≠ [])
    (hv : ∀ c ∈ cf, 0 ≤ c.predicted_value)
    (hbpos : ∀ b, hb = some b → 0 < b) :
    (∀ r, generate_peak_avoidance_recommendation cf pd cp = .ok (some r) →
      0 ≤ r.cost_savings ∧ 0 ≤ r.co2_reduction) ∧
    (∀ r, generate_weather_alert wf cf pd cp = .ok (some r) →
      0 ≤ r.cost_savings ∧ 0 ≤ r.co2_reduction) ∧
    (∀ r, generate_efficiency_alert cf hb now = .ok (some r) →
      0 ≤ r.cost_savings ∧ 0 ≤ r.co2_reduction) ∧
    (∀ r, generate_hvac_precool_recommendation cf wf pd cp = .ok (some r) →
      0 ≤ r.cost_savings ∧ 0 ≤ r.co2_reduction) ∧
    (∀ r, generate_ev_charging_recommendation cf pd cp n = .ok (some r) →
      0 ≤ r.cost_savings ∧ 0 ≤ r.co2_reduction) :=
  ⟨fun _ h => peak_nonneg hpd hcp hv h,
   fun _ h => weather_nonneg hpd hcp hcf hv h,
   fun _ h => efficiency_nonneg hbpos h,
   fun _ h => hvac_nonneg hv h,
   fun _ h => ev_nonneg h⟩

/-- C1 witness: the amended non-negativity theorem applies to a concrete
well-formed input (an absent tariff profile, one non-negative forecast
point, baseline 1, one EV). -/
theorem c1_nonneg_witness :
    (wfPricing PVal.pynone = true) ∧ (wfCaiso [] = true) ∧
    (([⟨⟨0, 1, 0, 6, 0⟩, 2⟩] : List ConsPoint) ≠ []) ∧
    (∀ c ∈ ([⟨⟨0, 1, 0, 6, 0⟩, 2⟩] : List ConsPoint),
      0 ≤ c.predicted_value) ∧
    (∀ b : ℚ, (some 1 : Option ℚ) = some b → 0 < b) ∧
    ((∀ r, generate_peak_avoidance_recommendation
        [⟨⟨0, 1, 0, 6, 0⟩, 2⟩] PVal.pynone [] = .ok (some r) →
      0 ≤ r.cost_savings ∧ 0 ≤ r.co2_reduction) ∧
    (∀ r, generate_weather_alert [] [⟨⟨0, 1, 0, 6, 0⟩, 2⟩]
        PVal.pynone [] = .ok (some r) →
      0 ≤ r.cost_savings ∧ 0 ≤ r.co2_reduction) ∧
    (∀ r, generate_efficiency_alert [⟨⟨0, 1, 0, 6, 0⟩, 2⟩] (some 1)
        ⟨0, 0, 0, 1, 0⟩ = .ok (some r) →
      0 ≤ r.cost_savings ∧ 0 ≤ r.co2_reduction) ∧
    (∀ r, generate_hvac_precool_recommendation [⟨⟨0, 1, 0, 6, 0⟩, 2⟩] []
        PVal.pynone [] = .ok (some r) →
      0 ≤ r.cost_savings ∧ 0 ≤ r.co2_reduction) ∧
    (∀ r, generate_ev_charging_recommendation [⟨⟨0, 1, 0, 6, 0⟩, 2⟩]
        PVal.pynone [] 1 = .ok (some r) →
      0 ≤ r.cost_savings ∧ 0 ≤ r.co2_reduction)) := by
  have hv : ∀ c ∈ ([⟨⟨0, 1, 0, 6, 0⟩, 2⟩] : List ConsPoint),
      0 ≤ c.predicted_value := by
    intro c hc
    rcases List.mem_cons.mp hc with rfl | h2
    · show (0 : ℚ) ≤ 2
      norm_num
    · cases h2
  have hbpos : ∀ b : ℚ, (some 1 : Option ℚ) = some b → 0 < b := by
    intro b hb
    injection hb with h1
    rw [← h1]
    norm_num
  exact ⟨rfl, rfl, (by intro h; cases h), hv, hbpos,
    c1_nonneg_surfaced_recommendations [⟨⟨0, 1, 0, 6, 0⟩, 2⟩] []
      PVal.pynone [] (some 1) ⟨0, 0, 0, 1, 0⟩ 1 rfl rfl
      (by intro h; cases h) hv hbpos⟩
